import Mathlib

/-!
Verification development for the front-end of the Cooper compiler
(github.com/ruistola/cooper).

The Go sources are embedded shallowly:

* `Cooper.Lexer` embeds the lexer (`lexer/lexer.go`, the revision whose
  `Tokenize` filters only `WHITESPACE` tokens and whose number pattern
  supports hex/binary/underscores).  Each regular-expression pattern is
  embedded as a match-length function on `List Char`, specialised to the
  exact regex of the source, including the behaviour of Go's
  `FindStringIndex` on the end-of-line pattern `^\r?\n|\r`, whose second
  alternative is not anchored (a match at a non-zero index makes the Go
  code panic; panics are modelled as `Except.error`).
* `Cooper.Parser` embeds the newest parser revision (`parser/parser.go`,
  the one with `use`-declarations and the `inThenBranch` flag).  The Go
  parser mutates its token buffer and panics on unexpected input; this is
  modelled by explicit state passing and `Except`.  Recursive parser
  functions take an explicit fuel argument (structural recursion on fuel);
  running out of fuel yields `Except.error "out of fuel"`, which never
  happens on the concrete inputs evaluated below.
* `Cooper.Types` embeds `typechecker/types.go` (the revision with
  `UnitType`), `Cooper.Resolver` embeds `typechecker/resolver.go`
  (the `Resolver` with `SymbolTable`), `Cooper.Checker` embeds the
  expression/return-statement part of the newest `TypeChecker` revision
  (the one keyed by `currentFuncReturnType` and `IsUnit`), and
  `Cooper.Analyzer` embeds `typechecker/semantic_analyzer.go`.
  Go maps are modelled as association lists where a later `Define`
  shadows earlier entries (insert at the head, look up the first hit);
  error accumulation (`tc.Errors = append(...)`) is modelled by having
  every embedded function return the list of errors it appends, in order.
  No embedded Go function ever reads the accumulated error list, so this
  is equivalent to threading the full list.

Note on revisions: the repository contains several revisions of each
component.  The embeddings below follow the revision named in each
claim's sources.  The `USE` token kind and the `srcPos` field of `Token`
exist only in the lexer revision that accompanies the newest parser (the
lexer revision embedded here predates them; its `Tokenize` never produces
a `USE` token and leaves `srcPos` at its zero value).
-/

set_option maxHeartbeats 4000000
set_option maxRecDepth 200000

/-- Propositional equality of `Except` values is decidable when it is
decidable on both components (used to evaluate embedded functions on
concrete inputs with `decide`). -/
instance {ε α : Type} [DecidableEq ε] [DecidableEq α] : DecidableEq (Except ε α) := by
  intro a b
  cases a <;> cases b <;> first
    | (apply isFalse; intro h; exact Except.noConfusion h)
    | (rename_i x y
       exact if h : x = y then isTrue (by rw [h]) else isFalse (by intro hc; cases hc; exact h rfl))

namespace Cooper

/-- Token kinds, in the declaration order of the Go `TokenType` enum
(`EOF` is the zero value, which is what Go's `Token{}` defaults to).
`USE` is appended from the parser-era revision of the lexer. -/
inductive TokenType where
  | EOF | EOL | WHITESPACE | WORD | COMMENT | NUMBER | STRING | IDENTIFIER
  | COLON_EQUALS | DOUBLE_EQUALS | NOT_EQUALS | LESS_EQUALS | GREATER_EQUALS
  | PLUS_EQUALS | DASH_EQUALS | STAR_EQUALS | SLASH_EQUALS | PERCENT_EQUALS
  | EQUALS | NOT | PIPE | AMPERSAND | CHEVRON | LESS | GREATER | PLUS | DASH
  | UNDERSCORE | SLASH | STAR | PERCENT | DOT | SEMICOLON | COLON | COMMA
  | OPEN_BRACKET | CLOSE_BRACKET | OPEN_CURLY | CLOSE_CURLY | OPEN_PAREN | CLOSE_PAREN
  | LET | STRUCT | TRUE | FALSE | FUNC | IF | OR | AND | THEN | ELSE | FOR | RETURN
  | USE
deriving DecidableEq, Repr

/-- `Token` stores a kind together with the raw lexeme.  The parser-era
revision also records the source offset (`SrcPos`); the lexer revision
embedded here predates that field, so its tokens carry `srcPos = 0`. -/
structure Token where
  type : TokenType
  value : String
  srcPos : Nat
deriving DecidableEq, Repr

/-- Go's `lexer.Token{}` zero value: `EOF` is the zero `TokenType`. -/
def defaultToken : Token := ⟨.EOF, "", 0⟩

namespace Lexer

/-- The character class of Go's regexp `\s`, i.e. `[\t\n\f\r ]`. -/
def isGoWhitespace (c : Char) : Bool :=
  c = '\t' || c = '\n' || c = '\x0c' || c = '\r' || c = ' '

/-- `[a-zA-Z_]`, the first character of the `WORD` pattern. -/
def isWordStart (c : Char) : Bool := c.isAlpha || c = '_'

/-- `[a-zA-Z0-9_]`, the continuation characters of the `WORD` pattern. -/
def isWordChar (c : Char) : Bool := c.isAlphanum || c = '_'

/-- `[0-9a-fA-F]`. -/
def isHexDigit (c : Char) : Bool :=
  c.isDigit || ('a' ≤ c && c ≤ 'f') || ('A' ≤ c && c ≤ 'F')

/-- `[01]`. -/
def isBinDigit (c : Char) : Bool := c = '0' || c = '1'

/-- Length matched by `(_?D)*` (digits with single underscore
separators, never trailing), for a digit class `isD`. -/
def digitsExt (isD : Char → Bool) : List Char → Nat
  | '_' :: c :: rest => if isD c then 2 + digitsExt isD rest else 0
  | c :: rest => if isD c then 1 + digitsExt isD rest else 0
  | [] => 0

/-- Length matched by `D(_?D)*`; `0` means no match. -/
def digitsRun (isD : Char → Bool) : List Char → Nat
  | c :: rest => if isD c then 1 + digitsExt isD rest else 0
  | [] => 0

/-- The `EOL` pattern `^\r?\n|\r`.  The second alternative is not
anchored; if it matches at a non-zero index the Go lexer's sanity check
panics (`regex matched at non-zero index`). -/
def matchEOL : List Char → Except String (Option Nat)
  | '\r' :: '\n' :: _ => .ok (some 2)
  | '\r' :: _ => .ok (some 1)
  | '\n' :: _ => .ok (some 1)
  | s =>
    if s.contains '\r' then
      .error "Internal error: regex matched at non-zero index!"
    else
      .ok none

/-- The `WHITESPACE` pattern `^\s+`. -/
def matchWhitespace (s : List Char) : Option Nat :=
  let n := (s.takeWhile isGoWhitespace).length
  if n = 0 then none else some n

/-- The `WORD` pattern `^[a-zA-Z_][a-zA-Z0-9_]*`. -/
def matchWord : List Char → Option Nat
  | c :: rest => if isWordStart c then some (1 + (rest.takeWhile isWordChar).length) else none
  | [] => none

/-- The `COMMENT` pattern `^\/\/.*` (Go's `.` does not match `\n`). -/
def matchComment : List Char → Option Nat
  | '/' :: '/' :: rest => some (2 + (rest.takeWhile (fun c => c ≠ '\n')).length)
  | _ => none

/-- The hex alternative `0[xX][0-9a-fA-F](_?[0-9a-fA-F])*`. -/
def matchHexNumber : List Char → Option Nat
  | '0' :: c :: rest =>
    if c = 'x' || c = 'X' then
      let n := digitsRun isHexDigit rest
      if n = 0 then none else some (2 + n)
    else none
  | _ => none

/-- The binary alternative `0[bB][01](_?[01])*`. -/
def matchBinNumber : List Char → Option Nat
  | '0' :: c :: rest =>
    if c = 'b' || c = 'B' then
      let n := digitsRun isBinDigit rest
      if n = 0 then none else some (2 + n)
    else none
  | _ => none

/-- The decimal alternative
`[0-9](_?[0-9])*(\.([0-9](_?[0-9])*)?)?([eE][+-]?[0-9](_?[0-9])*)?`. -/
def matchDecNumber (s : List Char) : Option Nat :=
  let n := digitsRun Char.isDigit s
  if n = 0 then none
  else
    let s1 := s.drop n
    let fracLen :=
      match s1 with
      | '.' :: rest => 1 + digitsRun Char.isDigit rest
      | _ => 0
    let s2 := s1.drop fracLen
    let expLen :=
      match s2 with
      | e :: rest =>
        if e = 'e' || e = 'E' then
          match rest with
          | sgn :: rest2 =>
            if sgn = '+' || sgn = '-' then
              let m := digitsRun Char.isDigit rest2
              if m = 0 then 0 else 2 + m
            else
              let m := digitsRun Char.isDigit rest
              if m = 0 then 0 else 1 + m
          | [] => 0
        else 0
      | [] => 0
    some (n + fracLen + expLen)

/-- The full `NUMBER` pattern: the regex alternation prefers the hex,
then binary, then decimal branch (leftmost-first semantics). -/
def matchNumber (s : List Char) : Option Nat :=
  match matchHexNumber s with
  | some n => some n
  | none =>
    match matchBinNumber s with
    | some n => some n
    | none => matchDecNumber s

/-- The `STRING` pattern `^"[^"]*"`. -/
def matchString : List Char → Option Nat
  | '"' :: rest =>
    match rest.findIdx? (fun c => c = '"') with
    | some i => some (i + 2)
    | none => none
  | _ => none

/-- An anchored fixed-string pattern (all operator and bracket
patterns are of this shape). -/
def matchLit (lit : List Char) (s : List Char) : Option Nat :=
  if lit.isPrefixOf s then some lit.length else none

/-- One entry of the lexer's ordered `tokenPatterns` table. -/
structure TokenPattern where
  tokenType : TokenType
  matcher : List Char → Except String (Option Nat)

/-- Wraps an infallible matcher. -/
def pure0 (f : List Char → Option Nat) : List Char → Except String (Option Nat) :=
  fun s => .ok (f s)

/-- The ordered pattern table of the lexer (`tokenPatterns`). -/
def tokenPatterns : List TokenPattern := [
  ⟨.EOL, matchEOL⟩,
  ⟨.WHITESPACE, pure0 matchWhitespace⟩,
  ⟨.WORD, pure0 matchWord⟩,
  ⟨.COMMENT, pure0 matchComment⟩,
  ⟨.NUMBER, pure0 matchNumber⟩,
  ⟨.STRING, pure0 matchString⟩,
  ⟨.COLON_EQUALS, pure0 (matchLit [':', '='])⟩,
  ⟨.DOUBLE_EQUALS, pure0 (matchLit ['=', '='])⟩,
  ⟨.NOT_EQUALS, pure0 (matchLit ['!', '='])⟩,
  ⟨.LESS_EQUALS, pure0 (matchLit ['<', '='])⟩,
  ⟨.GREATER_EQUALS, pure0 (matchLit ['>', '='])⟩,
  ⟨.PLUS_EQUALS, pure0 (matchLit ['+', '='])⟩,
  ⟨.DASH_EQUALS, pure0 (matchLit ['-', '='])⟩,
  ⟨.STAR_EQUALS, pure0 (matchLit ['*', '='])⟩,
  ⟨.SLASH_EQUALS, pure0 (matchLit ['/', '='])⟩,
  ⟨.PERCENT_EQUALS, pure0 (matchLit ['%', '='])⟩,
  ⟨.EQUALS, pure0 (matchLit ['='])⟩,
  ⟨.NOT, pure0 (matchLit ['!'])⟩,
  ⟨.PIPE, pure0 (matchLit ['|'])⟩,
  ⟨.AMPERSAND, pure0 (matchLit ['&'])⟩,
  ⟨.CHEVRON, pure0 (matchLit ['^'])⟩,
  ⟨.LESS, pure0 (matchLit ['<'])⟩,
  ⟨.GREATER, pure0 (matchLit ['>'])⟩,
  ⟨.PLUS, pure0 (matchLit ['+'])⟩,
  ⟨.DASH, pure0 (matchLit ['-'])⟩,
  ⟨.UNDERSCORE, pure0 (matchLit ['_'])⟩,
  ⟨.SLASH, pure0 (matchLit ['/'])⟩,
  ⟨.STAR, pure0 (matchLit ['*'])⟩,
  ⟨.PERCENT, pure0 (matchLit ['%'])⟩,
  ⟨.DOT, pure0 (matchLit ['.'])⟩,
  ⟨.SEMICOLON, pure0 (matchLit [';'])⟩,
  ⟨.COLON, pure0 (matchLit [':'])⟩,
  ⟨.COMMA, pure0 (matchLit [','])⟩,
  ⟨.OPEN_BRACKET, pure0 (matchLit ['['])⟩,
  ⟨.CLOSE_BRACKET, pure0 (matchLit [']'])⟩,
  ⟨.OPEN_CURLY, pure0 (matchLit ['{'])⟩,
  ⟨.CLOSE_CURLY, pure0 (matchLit ['}'])⟩,
  ⟨.OPEN_PAREN, pure0 (matchLit ['('])⟩,
  ⟨.CLOSE_PAREN, pure0 (matchLit [')'])⟩]

/-- The reserved keyword table of this lexer revision (no `use`). -/
def reservedKeywords : List (String × TokenType) := [
  ("let", .LET), ("struct", .STRUCT), ("true", .TRUE), ("false", .FALSE),
  ("func", .FUNC), ("if", .IF), ("or", .OR), ("and", .AND),
  ("then", .THEN), ("else", .ELSE), ("for", .FOR), ("return", .RETURN)]

/-- The token-construction part of `tryMatchPattern`: a `WORD` match is
reclassified as a keyword or an `IDENTIFIER`. -/
def mkToken (tokenType : TokenType) (lexeme : String) : Token :=
  if tokenType = .WORD then
    match reservedKeywords.lookup lexeme with
    | some kw => ⟨kw, lexeme, 0⟩
    | none => ⟨.IDENTIFIER, lexeme, 0⟩
  else ⟨tokenType, lexeme, 0⟩

/-- The inner pattern loop of `Tokenize`: try the patterns in order and
return the first token whose pattern matched with a non-zero length
(`length != 0` is the loop guard of the Go code). -/
def nextMatchAux (src : List Char) : List TokenPattern → Except String (Option (Token × Nat))
  | [] => .ok none
  | tp :: rest =>
    match tp.matcher src with
    | .error e => .error e
    | .ok none => nextMatchAux src rest
    | .ok (some len) =>
      if len = 0 then nextMatchAux src rest
      else .ok (some (mkToken tp.tokenType (String.mk (src.take len)), len))

theorem nextMatchAux_len_ne_zero {src : List Char} {pats : List TokenPattern}
    {t : Token} {len : Nat} (h : nextMatchAux src pats = .ok (some (t, len))) : len ≠ 0 := by
  induction pats with
  | nil => simp [nextMatchAux] at h
  | cons tp rest ih =>
    rw [nextMatchAux] at h
    rcases hm : tp.matcher src with e | o
    · rw [hm] at h; exact absurd h (by simp)
    · rw [hm] at h
      match o with
      | none => exact ih h
      | some l =>
        by_cases hl : l = 0
        · simp only [hl, if_pos rfl] at h
          exact ih h
        · simp only [if_neg hl] at h
          obtain ⟨-, h2⟩ := Prod.mk.injEq .. ▸ (Option.some.injEq .. ▸ (Except.ok.injEq .. ▸ h))
          exact h2 ▸ hl

/-- The outer loop of `Tokenize`: scan until the source is exhausted,
dropping `WHITESPACE` tokens and keeping everything else.  The loop
advances by at least one character per iteration (`nextMatchAux`
returns a non-zero length, `nextMatchAux_len_ne_zero`), so a fuel of
`src.length + 1` always suffices; fuel is an embedding artifact making
the recursion structural. -/
def tokenizeList : Nat → List Char → Except String (List Token)
  | 0, _ => .error "out of fuel"
  | _, [] => .ok []
  | fuel+1, src =>
    match nextMatchAux src tokenPatterns with
    | .error e => .error e
    | .ok none => .error "Internal error: failed to tokenize source"
    | .ok (some (tok, len)) =>
      match tokenizeList fuel (src.drop len) with
      | .error e => .error e
      | .ok toks => .ok (if tok.type = .WHITESPACE then toks else tok :: toks)

/-- `Tokenize` converts a raw source string into the token list. -/
def Tokenize (src : String) : Except String (List Token) :=
  tokenizeList (src.data.length + 1) src.data

end Lexer

/-! ### AST (`ast/ast.go`, the revision with `UnitExpr`, `BlockExpr.ResultExpr`,
`ExpressionStmt.ExplicitSemicolon` and `UseDeclStmt`)

Go's marker interfaces `TypeExpr`/`Expr`/`Stmt` become inductive types.
`MemberAssignExpr{Name, Value}` is modelled as a pair, `TypedIdent` as a
structure, `UseSpecExpr{Name, Module}` as a pair of strings.  Nil-able
fields (`VarDeclStmt.InitVal`, `FuncDeclStmt.ReturnType`, `IfStmt.Else`,
`ReturnStmt.Expr`) become `Option`.  A Go `ast.BlockStmt` embedded in
another node (`FuncDeclStmt.Body`, `ForStmt.Body`) is modelled by its
statement list.  `ForStmt.Iter` has static type `ast.ExpressionStmt`;
it is modelled as a `Stmt` that the parser always builds with the
`ExpressionStmt` constructor.  `StructMemberExpr.Member` is an
`ast.IdentExpr`; only its `Value` string is modelled. -/

inductive TypeExpr where
  | NamedTypeExpr (typeName : String)
  | ArrayTypeExpr (underlyingType : TypeExpr)
  | FuncTypeExpr (returnType : TypeExpr) (paramTypes : List TypeExpr)
deriving BEq

structure TypedIdent where
  name : String
  type : TypeExpr
deriving BEq

mutual
inductive Expr where
  | UnitExpr
  | BoolLiteralExpr (value : Bool)
  | StringLiteralExpr (value : String)
  | IdentExpr (value : String)
  | NumberLiteralExpr (value : String)
  | UnaryExpr (operator : Token) (rhs : Expr)
  | BinaryExpr (lhs : Expr) (operator : Token) (rhs : Expr)
  | BlockExpr (statements : List Stmt) (resultExpr : Expr)
  | GroupExpr (expr : Expr)
  | FuncCallExpr (func : Expr) (args : List Expr)
  | StructLiteralExpr (struct : Expr) (members : List (String × Expr))
  | StructMemberExpr (struct : Expr) (member : String)
  | ArrayIndexExpr (array : Expr) (index : Expr)
  | IfExpr (cond : Expr) (thenExpr : Expr) (elseExpr : Expr)
  | AssignExpr (assigne : Expr) (operator : Token) (assignedValue : Expr)
  | VarDeclAssignExpr (name : String) (assignedValue : Expr)
inductive Stmt where
  | BlockStmt (statements : List Stmt)
  | ExpressionStmt (expr : Expr) (explicitSemicolon : Bool)
  | VarDeclStmt (var : TypedIdent) (initVal : Option Expr)
  | FuncDeclStmt (name : String) (parameters : List TypedIdent)
      (returnType : Option TypeExpr) (body : List Stmt)
  | StructDeclStmt (name : String) (members : List TypedIdent)
  | IfStmt (cond : Expr) (thenStmt : Stmt) (elseStmt : Option Stmt)
  | ForStmt (init : Stmt) (cond : Expr) (iter : Stmt) (body : List Stmt)
  | ReturnStmt (expr : Option Expr)
  | UseDeclStmt (useSpecs : List (String × String))
end

/-- Fuel-exhaustion marker (an embedding artifact; recursive embedded
functions take explicit fuel, and all concrete runs below use enough
fuel for this never to occur). -/
def outOfFuel : String := "out of fuel"

namespace Parser

/-- The parser state (`type parser struct`).  The paren stack is a list
with its top at the head. -/
structure ParserState where
  tokens : List Token
  pos : Nat
  parenStack : List TokenType
  inThenBranch : Bool
deriving DecidableEq, Repr

/-- `newParser`. -/
def newParser (tokens : List Token) : ParserState :=
  ⟨tokens, 0, [], false⟩

/-- `beforeSemicolon`: an EOL may become a semicolon only if the
previous token is one of these. -/
def beforeSemicolon : List TokenType := [
  .NUMBER, .STRING, .IDENTIFIER, .UNDERSCORE, .COMMA,
  .CLOSE_BRACKET, .CLOSE_CURLY, .CLOSE_PAREN,
  .ELSE, .FALSE, .RETURN, .THEN, .TRUE]

/-- `afterSemicolon`: an EOL may become a semicolon only if the next
token is one of these. -/
def afterSemicolon : List TokenType := [
  .EOF, .COMMENT, .NUMBER, .STRING, .IDENTIFIER, .UNDERSCORE,
  .SEMICOLON, .OPEN_CURLY, .CLOSE_CURLY, .OPEN_PAREN,
  .FALSE, .FOR, .FUNC, .IF, .ELSE, .LET, .RETURN, .STRUCT, .TRUE, .USE]

/-- `prevToken`: the previous token, or the zero `Token` (EOF). -/
def ParserState.prevToken (p : ParserState) : Token :=
  if p.pos > 0 then p.tokens.getD (p.pos - 1) defaultToken else defaultToken

/-- `currentToken`: the current token, or the zero `Token` (EOF). -/
def ParserState.currentToken (p : ParserState) : Token :=
  p.tokens.getD p.pos defaultToken

/-- `nextToken`: the next token, or the zero `Token` (EOF). -/
def ParserState.nextToken (p : ParserState) : Token :=
  p.tokens.getD (p.pos + 1) defaultToken

/-- Deleting the current token from the buffer:
`p.tokens = append(p.tokens[:p.pos], p.tokens[p.pos+1:]...)`. -/
def removeCurrentToken (p : ParserState) : ParserState :=
  { p with tokens := p.tokens.take p.pos ++ p.tokens.drop (p.pos + 1) }

/-- Rewriting the current token in place to an explicit semicolon
(`p.tokens[p.pos] = lexer.Token{SEMICOLON, ";", currToken.SrcPos}`). -/
def rewriteCurrentToSemicolon (p : ParserState) : ParserState :=
  { p with tokens := p.tokens.set p.pos ⟨.SEMICOLON, ";", p.currentToken.srcPos⟩ }

/-- The three-condition test of `peek` (lines `isOutsideParens` and
`statementCanTerminate`, plus the `nextToken != EOF` guard). -/
def eolPromotionConditions (p : ParserState) : Bool :=
  p.parenStack.isEmpty
    && (beforeSemicolon.contains p.prevToken.type
        && afterSemicolon.contains p.nextToken.type)
    && p.nextToken.type != .EOF

/-- The recursion of `peek`.  Each recursive call deletes one token, so
a fuel of `tokens.length + 1` always suffices; the fuel-0 branch is
unreachable and returns the current token unchanged. -/
def peekAux : Nat → ParserState → Token × ParserState
  | 0, p => (p.currentToken, p)
  | fuel+1, p =>
    let currToken := p.currentToken
    if currToken.type = .EOL then
      if p.nextToken.type = .CLOSE_CURLY then
        -- never promote an EOL that sits just before a closing brace
        peekAux fuel (removeCurrentToken p)
      else if eolPromotionConditions p then
        let p1 := rewriteCurrentToSemicolon p
        (p1.currentToken, p1)
      else
        peekAux fuel (removeCurrentToken p)
    else (currToken, p)

/-- `peek`: returns the current token without advancing, rewriting an
applicable EOL to a semicolon and deleting inapplicable EOLs. -/
def peek (p : ParserState) : Token × ParserState :=
  peekAux (p.tokens.length + 1) p

/-- `popParenStack`: panics (here: errors) on an unmatched symbol. -/
def popParenStack (t : TokenType) (p : ParserState) : Except String ParserState :=
  match p.parenStack with
  | [] => .error "Unmatched pairwise symbol found"
  | top :: rest =>
    if (top = .OPEN_PAREN && t ≠ .CLOSE_PAREN)
        || (top = .OPEN_CURLY && t ≠ .CLOSE_CURLY)
        || (top = .OPEN_BRACKET && t ≠ .CLOSE_BRACKET) then
      .error "Unmatched pairwise symbol found"
    else .ok { p with parenStack := rest }

/-- `consume`: consumes one token, which must be among `expected` when
that list is non-empty, and maintains the paren stack. -/
def consume (expected : List TokenType) (p : ParserState) : Except String (Token × ParserState) := do
  let (currToken, p) := peek p
  if expected.length > 0 && !(expected.contains currToken.type) then
    .error "Expected token of a different type"
  else
    let p ←
      match currToken.type with
      | .OPEN_PAREN | .OPEN_BRACKET =>
        pure { p with parenStack := currToken.type :: p.parenStack }
      | .CLOSE_PAREN | .CLOSE_BRACKET => popParenStack currToken.type p
      | .CLOSE_CURLY =>
        -- pop only if a matching open curly is on top of the stack
        match p.parenStack with
        | top :: _ => if top = .OPEN_CURLY then popParenStack currToken.type p else pure p
        | [] => pure p
      | _ => pure p
    .ok (currToken, { p with pos := p.pos + 1 })

/-- `statementTerminates`. -/
def statementTerminates (p : ParserState) : Bool × ParserState :=
  let (t, p) := peek p
  match t.type with
  | .SEMICOLON | .EOF | .CLOSE_CURLY => (true, p)
  | .ELSE => (p.inThenBranch, p)
  | _ => (false, p)

/-- `consumeStatementTerminator`. -/
def consumeStatementTerminator (p : ParserState) : Except String ParserState :=
  let (t, p) := peek p
  match t.type with
  | .SEMICOLON => do
    let (_, p) ← consume [] p
    .ok p
  | .EOF => .ok p
  | .CLOSE_CURLY => .ok p
  | .ELSE =>
    if p.inThenBranch then .ok p
    else .error "Expected statement terminator"
  | _ => .error "Expected statement terminator"

/-- `headPrecedence`: right binding power of head (NUD) tokens; panics
(errors) for tokens with no head binding power — in particular `NOT`. -/
def headPrecedence (tokenType : TokenType) : Except String Nat :=
  match tokenType with
  | .EOF | .SEMICOLON | .OPEN_PAREN | .OPEN_CURLY => .ok 0
  | .NUMBER | .STRING | .WORD | .TRUE | .FALSE => .ok 1
  | .PLUS | .DASH => .ok 10
  | _ => .error "Cannot determine binding power as a head token"

/-- `tailPrecedence`: (left, right) binding powers of tail (LED) tokens. -/
def tailPrecedence (tokenType : TokenType) : Except String (Nat × Nat) :=
  match tokenType with
  | .EOF | .SEMICOLON | .CLOSE_PAREN | .COMMA | .CLOSE_CURLY
  | .CLOSE_BRACKET | .THEN | .ELSE => .ok (0, 0)
  | .EQUALS | .PLUS_EQUALS | .DASH_EQUALS | .COLON_EQUALS => .ok (1, 2)
  | .OR | .AND => .ok (4, 3)
  | .DOUBLE_EQUALS | .NOT_EQUALS => .ok (5, 6)
  | .LESS | .LESS_EQUALS | .GREATER | .GREATER_EQUALS => .ok (8, 7)
  | .PLUS | .DASH => .ok (10, 9)
  | .STAR | .SLASH | .PERCENT => .ok (12, 11)
  | .OPEN_CURLY => .ok (13, 0)
  | .OPEN_PAREN | .OPEN_BRACKET => .ok (14, 0)
  | .DOT => .ok (16, 15)
  | _ => .error "Cannot determine binding power as a tail token"

/-- The error message of `parseHeadExpr`'s default branch. -/
def headExprFailMsg (token : Token) : String :=
  "Failed to parse head expression from token " ++ token.value

mutual

/-- `parseStmt`: keyword dispatch. -/
def parseStmt : Nat → ParserState → Except String (Stmt × ParserState)
  | 0, _ => .error outOfFuel
  | fuel+1, p =>
    let (t, p) := peek p
    match t.type with
    | .FOR => parseForStmt fuel p
    | .FUNC => parseFuncDeclStmt fuel p
    | .IF => parseIfStmt fuel p
    | .LET => parseVarDeclStmt fuel p
    | .RETURN => parseReturnStmt fuel p
    | .STRUCT => parseStructDeclStmt fuel p
    | .USE => parseUseDeclStmt fuel p
    | _ => parseExpressionStmt fuel p
  termination_by structural fuel => fuel

/-- `parseExpr`: the Pratt loop entry. -/
def parseExpr : Nat → Nat → ParserState → Except String (Expr × ParserState)
  | 0, _, _ => .error outOfFuel
  | fuel+1, min_bp, p => do
    let (token, p) ← consume [] p
    let (leftExpr, p) ← parseHeadExpr fuel token p
    parseExprLoop fuel min_bp leftExpr p
  termination_by structural fuel => fuel

/-- The `for` loop inside `parseExpr`. -/
def parseExprLoop : Nat → Nat → Expr → ParserState → Except String (Expr × ParserState)
  | 0, _, _, _ => .error outOfFuel
  | fuel+1, min_bp, leftExpr, p =>
    let (token, p) := peek p
    match tailPrecedence token.type with
    | .error e => .error e
    | .ok (lbp, rbp) =>
      if lbp ≤ min_bp then .ok (leftExpr, p)
      else do
        let (leftExpr, p) ← parseTailExpr fuel rbp leftExpr p
        parseExprLoop fuel min_bp leftExpr p
  termination_by structural fuel => fuel

/-- `parseHeadExpr`. -/
def parseHeadExpr : Nat → Token → ParserState → Except String (Expr × ParserState)
  | 0, _, _ => .error outOfFuel
  | fuel+1, token, p =>
    match token.type with
    | .NUMBER => .ok (.NumberLiteralExpr token.value, p)
    | .STRING => .ok (.StringLiteralExpr token.value, p)
    | .IDENTIFIER => .ok (.IdentExpr token.value, p)
    | .TRUE | .FALSE => .ok (.BoolLiteralExpr (token.type = .TRUE), p)
    | .PLUS | .DASH => do
      let rbp ← headPrecedence token.type
      let (rhs, p) ← parseExpr fuel rbp p
      .ok (.UnaryExpr token rhs, p)
    | .OPEN_PAREN => do
      let rbp ← headPrecedence token.type
      let (rhs, p) ← parseExpr fuel rbp p
      let (_, p) ← consume [.CLOSE_PAREN] p
      .ok (.GroupExpr rhs, p)
    | .IF => parseIfExpr fuel p
    | .OPEN_CURLY => do
      let (rhs, p) ← parseBlockExpr fuel p
      let (_, p) ← consume [.CLOSE_CURLY] p
      .ok (rhs, p)
    | _ => .error (headExprFailMsg token)
  termination_by structural fuel => fuel

/-- `parseTailExpr`. -/
def parseTailExpr : Nat → Nat → Expr → ParserState → Except String (Expr × ParserState)
  | 0, _, _, _ => .error outOfFuel
  | fuel+1, rbp, head, p =>
    let (currToken, p) := peek p
    match currToken.type with
    | .COLON_EQUALS => parseDeclAssignExpr fuel head p
    | .EQUALS | .PLUS_EQUALS | .DASH_EQUALS | .STAR_EQUALS | .SLASH_EQUALS => do
      let (operator, p) ← consume [] p
      let (rhs, p) ← parseExpr fuel rbp p
      .ok (.AssignExpr head operator rhs, p)
    | .PLUS | .DASH | .STAR | .SLASH | .PERCENT
    | .LESS | .LESS_EQUALS | .GREATER | .GREATER_EQUALS => do
      let (operator, p) ← consume [] p
      let (rhs, p) ← parseExpr fuel rbp p
      .ok (.BinaryExpr head operator rhs, p)
    | .OPEN_PAREN => parseFuncCallExpr fuel head p
    | .OPEN_CURLY => parseStructLiteralExpr fuel head p
    | .OPEN_BRACKET => parseArrayIndexExpr fuel head p
    | .DOT => parseStructMemberExpr fuel head p
    | _ => .error "Failed to parse tail expression"
  termination_by structural fuel => fuel

/-- `parseTypeExpr`. -/
def parseTypeExpr : Nat → ParserState → Except String (TypeExpr × ParserState)
  | 0, _ => .error outOfFuel
  | fuel+1, p => do
    let (t0, p) := peek p
    let (t, p) ←
      if t0.type = .OPEN_PAREN then do
        let (_, p) ← consume [.OPEN_PAREN] p
        let (t, p) ← parseTypeExpr fuel p
        let (_, p) ← consume [.CLOSE_PAREN] p
        pure (t, p)
      else if t0.type = .FUNC then
        parseFuncTypeExpr fuel p
      else do
        let (nameTok, p) ← consume [.IDENTIFIER] p
        pure (TypeExpr.NamedTypeExpr nameTok.value, p)
    let (t1, p) := peek p
    if t1.type = .OPEN_BRACKET then parseArrayTypeExpr fuel t p
    else .ok (t, p)
  termination_by structural fuel => fuel

/-- `parseArrayTypeExpr`. -/
def parseArrayTypeExpr : Nat → TypeExpr → ParserState → Except String (TypeExpr × ParserState)
  | 0, _, _ => .error outOfFuel
  | fuel+1, innerType, p => do
    let (_, p) ← consume [.OPEN_BRACKET] p
    let (_, p) ← consume [.CLOSE_BRACKET] p
    let arrayType := TypeExpr.ArrayTypeExpr innerType
    let (t1, p) := peek p
    if t1.type = .OPEN_BRACKET then parseArrayTypeExpr fuel arrayType p
    else .ok (arrayType, p)
  termination_by structural fuel => fuel

/-- `parseFuncTypeExpr`. -/
def parseFuncTypeExpr : Nat → ParserState → Except String (TypeExpr × ParserState)
  | 0, _ => .error outOfFuel
  | fuel+1, p => do
    let (_, p) ← consume [.FUNC] p
    let (_, p) ← consume [.OPEN_PAREN] p
    let (paramTypes, p) ← parseFuncTypeParams fuel [] p
    let (_, p) ← consume [.CLOSE_PAREN] p
    let (t1, p) := peek p
    if t1.type = .COLON then do
      let (_, p) ← consume [.COLON] p
      let (returnType, p) ← parseTypeExpr fuel p
      .ok (.FuncTypeExpr returnType paramTypes, p)
    else
      .ok (.FuncTypeExpr (.NamedTypeExpr "void") paramTypes, p)
  termination_by structural fuel => fuel

/-- The parameter loop of `parseFuncTypeExpr` (`for` until `)`;
a missing comma breaks out of the loop). -/
def parseFuncTypeParams : Nat → List TypeExpr → ParserState → Except String (List TypeExpr × ParserState)
  | 0, _, _ => .error outOfFuel
  | fuel+1, acc, p => do
    let (t0, p) := peek p
    if t0.type = .CLOSE_PAREN then .ok (acc, p)
    else do
      let (acc, p) ←
        if t0.type = .IDENTIFIER then do
          let (nameTok, p) ← consume [.IDENTIFIER] p
          let (t1, p) := peek p
          if t1.type = .COLON then do
            let (_, p) ← consume [.COLON] p
            let (paramType, p) ← parseTypeExpr fuel p
            pure (acc ++ [paramType], p)
          else
            pure (acc ++ [TypeExpr.NamedTypeExpr nameTok.value], p)
        else do
          let (paramType, p) ← parseTypeExpr fuel p
          pure (acc ++ [paramType], p)
      let (t2, p) := peek p
      if t2.type = .COMMA then do
        let (_, p) ← consume [.COMMA] p
        parseFuncTypeParams fuel acc p
      else .ok (acc, p)
  termination_by structural fuel => fuel

/-- `parseDeclAssignExpr`. -/
def parseDeclAssignExpr : Nat → Expr → ParserState → Except String (Expr × ParserState)
  | 0, _, _ => .error outOfFuel
  | fuel+1, head, p => do
    let (_, p) ← consume [.COLON_EQUALS] p
    match head with
    | .IdentExpr v => do
      let (assignedValue, p) ← parseExpr fuel 0 p
      .ok (.VarDeclAssignExpr v assignedValue, p)
    | _ => .error "The left-hand side of a declaration-assignment must be an identifier"
  termination_by structural fuel => fuel

/-- `parseVarDeclStmt`. -/
def parseVarDeclStmt : Nat → ParserState → Except String (Stmt × ParserState)
  | 0, _ => .error outOfFuel
  | fuel+1, p => do
    let (_, p) ← consume [.LET] p
    let (nameTok, p) ← consume [.IDENTIFIER] p
    let (_, p) ← consume [.COLON] p
    let (varType, p) ← parseTypeExpr fuel p
    let (terminates, p) := statementTerminates p
    if terminates then do
      let p ← consumeStatementTerminator p
      .ok (.VarDeclStmt ⟨nameTok.value, varType⟩ none, p)
    else do
      let (_, p) ← consume [.EQUALS] p
      let (initVal, p) ← parseExpr fuel 0 p
      let p ← consumeStatementTerminator p
      .ok (.VarDeclStmt ⟨nameTok.value, varType⟩ (some initVal), p)
  termination_by structural fuel => fuel

/-- `parseFuncDeclStmt`. -/
def parseFuncDeclStmt : Nat → ParserState → Except String (Stmt × ParserState)
  | 0, _ => .error outOfFuel
  | fuel+1, p => do
    let (_, p) ← consume [.FUNC] p
    let (nameTok, p) ← consume [.IDENTIFIER] p
    let (_, p) ← consume [.OPEN_PAREN] p
    let (params, p) ← parseFuncDeclParams fuel [] p
    let (_, p) ← consume [.CLOSE_PAREN] p
    let (t0, p) := peek p
    let (returnType, p) ←
      if t0.type = .COLON then do
        let (_, p) ← consume [.COLON] p
        let (rt, p) ← parseTypeExpr fuel p
        pure (some rt, p)
      else pure ((none : Option TypeExpr), p)
    let (_, p) ← consume [.OPEN_CURLY] p
    let (funcBody, p) ← parseBlockStmt fuel p
    let (_, p) ← consume [.CLOSE_CURLY] p
    .ok (.FuncDeclStmt nameTok.value params returnType funcBody, p)
  termination_by structural fuel => fuel

/-- The parameter loop of `parseFuncDeclStmt` (comma optional). -/
def parseFuncDeclParams : Nat → List TypedIdent → ParserState → Except String (List TypedIdent × ParserState)
  | 0, _, _ => .error outOfFuel
  | fuel+1, acc, p => do
    let (t0, p) := peek p
    if t0.type = .CLOSE_PAREN then .ok (acc, p)
    else do
      let (nameTok, p) ← consume [.IDENTIFIER] p
      let (_, p) ← consume [.COLON] p
      let (paramType, p) ← parseTypeExpr fuel p
      let acc := acc ++ [TypedIdent.mk nameTok.value paramType]
      let (t1, p) := peek p
      if t1.type = .COMMA then do
        let (_, p) ← consume [.COMMA] p
        parseFuncDeclParams fuel acc p
      else
        parseFuncDeclParams fuel acc p
  termination_by structural fuel => fuel

/-- `parseStructDeclStmt`: pushes an open curly onto the paren stack so
that EOLs inside the declaration are treated as whitespace. -/
def parseStructDeclStmt : Nat → ParserState → Except String (Stmt × ParserState)
  | 0, _ => .error outOfFuel
  | fuel+1, p => do
    let (_, p) ← consume [.STRUCT] p
    let (nameTok, p) ← consume [.IDENTIFIER] p
    let (_, p) ← consume [.OPEN_CURLY] p
    let p := { p with parenStack := TokenType.OPEN_CURLY :: p.parenStack }
    let (members, p) ← parseStructDeclMembers fuel [] p
    let (_, p) ← consume [.CLOSE_CURLY] p
    .ok (.StructDeclStmt nameTok.value members, p)

/-- The member loop of `parseStructDeclStmt` (comma consumed only when
present: `if p.peek().Type == lexer.COMMA { p.consume(lexer.COMMA) }`). -/
def parseStructDeclMembers : Nat → List TypedIdent → ParserState → Except String (List TypedIdent × ParserState)
  | 0, _, _ => .error outOfFuel
  | fuel+1, acc, p => do
    let (t0, p) := peek p
    if t0.type = .CLOSE_CURLY then .ok (acc, p)
    else do
      let (nameTok, p) ← consume [.IDENTIFIER] p
      let (_, p) ← consume [.COLON] p
      let (memberType, p) ← parseTypeExpr fuel p
      let acc := acc ++ [TypedIdent.mk nameTok.value memberType]
      let (t1, p) := peek p
      if t1.type = .COMMA then do
        let (_, p) ← consume [.COMMA] p
        parseStructDeclMembers fuel acc p
      else
        parseStructDeclMembers fuel acc p
  termination_by structural fuel => fuel

/-- `parseIfExpr` (the `if` head token has already been consumed by
`parseExpr`). -/
def parseIfExpr : Nat → ParserState → Except String (Expr × ParserState)
  | 0, _ => .error outOfFuel
  | fuel+1, p => do
    let (cond, p) ← parseExpr fuel 0 p
    let (_, p) ← consume [.THEN] p
    let (t0, p) := peek p
    let (thenExpr, p) ←
      if t0.type = .OPEN_CURLY then do
        let (_, p) ← consume [.OPEN_CURLY] p
        let (e, p) ← parseBlockExpr fuel p
        let (_, p) ← consume [.CLOSE_CURLY] p
        pure (e, p)
      else parseExpr fuel 0 p
    -- silently consume a semicolon left over from EOL conversion
    let (t1, p) := peek p
    let p ←
      if t1.type = .SEMICOLON then do
        let (_, p) ← consume [.SEMICOLON] p
        pure p
      else pure p
    let (_, p) ← consume [.ELSE] p
    let (t2, p) := peek p
    let (elseExpr, p) ←
      if t2.type = .OPEN_CURLY then do
        let (_, p) ← consume [.OPEN_CURLY] p
        let (e, p) ← parseBlockExpr fuel p
        let (_, p) ← consume [.CLOSE_CURLY] p
        pure (e, p)
      else parseExpr fuel 0 p
    .ok (.IfExpr cond thenExpr elseExpr, p)
  termination_by structural fuel => fuel

/-- `parseIfStmt`. -/
def parseIfStmt : Nat → ParserState → Except String (Stmt × ParserState)
  | 0, _ => .error outOfFuel
  | fuel+1, p => do
    let (_, p) ← consume [.IF] p
    let (cond, p) ← parseExpr fuel 0 p
    let (_, p) ← consume [.THEN] p
    let (t0, p) := peek p
    let (thenStmt, p) ←
      if t0.type = .OPEN_CURLY then do
        let (_, p) ← consume [.OPEN_CURLY] p
        let (stmts, p) ← parseBlockStmt fuel p
        let (_, p) ← consume [.CLOSE_CURLY] p
        pure (Stmt.BlockStmt stmts, p)
      else do
        let p := { p with inThenBranch := true }
        let (s, p) ← parseStmt fuel p
        let p := { p with inThenBranch := false }
        pure (s, p)
    let (t1, p) := peek p
    let (elseStmt, p) ←
      if t1.type = .ELSE then do
        let (_, p) ← consume [.ELSE] p
        let (t2, p) := peek p
        if t2.type = .OPEN_CURLY then do
          let (_, p) ← consume [.OPEN_CURLY] p
          let (stmts, p) ← parseBlockStmt fuel p
          let (_, p) ← consume [.CLOSE_CURLY] p
          pure (some (Stmt.BlockStmt stmts), p)
        else do
          let (s, p) ← parseStmt fuel p
          pure (some s, p)
      else pure ((none : Option Stmt), p)
    .ok (.IfStmt cond thenStmt elseStmt, p)
  termination_by structural fuel => fuel

/-- `parseForStmt`. -/
def parseForStmt : Nat → ParserState → Except String (Stmt × ParserState)
  | 0, _ => .error outOfFuel
  | fuel+1, p => do
    let (_, p) ← consume [.FOR] p
    let (_, p) ← consume [.OPEN_PAREN] p
    let (initStmt, p) ← parseStmt fuel p
    let (condStmt, p) ← parseExpressionStmt fuel p
    let condExpr ←
      match condStmt with
      | .ExpressionStmt e _ => pure e
      | _ => .error "type assertion to ast.ExpressionStmt failed"
    let (iterExpr, p) ← parseExpr fuel 0 p
    let iterStmt := Stmt.ExpressionStmt iterExpr false
    let (_, p) ← consume [.CLOSE_PAREN] p
    let (_, p) ← consume [.OPEN_CURLY] p
    let (body, p) ← parseBlockStmt fuel p
    let (_, p) ← consume [.CLOSE_CURLY] p
    .ok (.ForStmt initStmt condExpr iterStmt body, p)
  termination_by structural fuel => fuel

/-- `parseFuncCallExpr`. -/
def parseFuncCallExpr : Nat → Expr → ParserState → Except String (Expr × ParserState)
  | 0, _, _ => .error outOfFuel
  | fuel+1, left, p => do
    let (_, p) ← consume [.OPEN_PAREN] p
    let (args, p) ← parseFuncCallArgs fuel [] p
    let (_, p) ← consume [.CLOSE_PAREN] p
    .ok (.FuncCallExpr left args, p)
  termination_by structural fuel => fuel

/-- The argument loop of `parseFuncCallExpr` (comma optional). -/
def parseFuncCallArgs : Nat → List Expr → ParserState → Except String (List Expr × ParserState)
  | 0, _, _ => .error outOfFuel
  | fuel+1, acc, p => do
    let (t0, p) := peek p
    if t0.type = .CLOSE_PAREN then .ok (acc, p)
    else do
      let (arg, p) ← parseExpr fuel 0 p
      let acc := acc ++ [arg]
      let (t1, p) := peek p
      if t1.type = .COMMA then do
        let (_, p) ← consume [.COMMA] p
        parseFuncCallArgs fuel acc p
      else
        parseFuncCallArgs fuel acc p
  termination_by structural fuel => fuel

/-- `parseStructLiteralExpr`: pushes an open curly onto the paren
stack; the member comma is mandatory (`p.consume(lexer.COMMA)`). -/
def parseStructLiteralExpr : Nat → Expr → ParserState → Except String (Expr × ParserState)
  | 0, _, _ => .error outOfFuel
  | fuel+1, left, p => do
    let (_, p) ← consume [.OPEN_CURLY] p
    let p := { p with parenStack := TokenType.OPEN_CURLY :: p.parenStack }
    let (members, p) ← parseStructLiteralMembers fuel [] p
    let (_, p) ← consume [.CLOSE_CURLY] p
    .ok (.StructLiteralExpr left members, p)
  termination_by structural fuel => fuel

/-- The member loop of `parseStructLiteralExpr`. -/
def parseStructLiteralMembers : Nat → List (String × Expr) → ParserState → Except String (List (String × Expr) × ParserState)
  | 0, _, _ => .error outOfFuel
  | fuel+1, acc, p => do
    let (t0, p) := peek p
    if t0.type = .CLOSE_CURLY then .ok (acc, p)
    else do
      let (nameTok, p) ← consume [.IDENTIFIER] p
      let (_, p) ← consume [.COLON] p
      let (value, p) ← parseExpr fuel 0 p
      let (_, p) ← consume [.COMMA] p
      parseStructLiteralMembers fuel (acc ++ [(nameTok.value, value)]) p
  termination_by structural fuel => fuel

/-- `parseStructMemberExpr`. -/
def parseStructMemberExpr : Nat → Expr → ParserState → Except String (Expr × ParserState)
  | 0, _, _ => .error outOfFuel
  | _+1, left, p => do
    let (_, p) ← consume [.DOT] p
    let (nameTok, p) ← consume [.IDENTIFIER] p
    .ok (.StructMemberExpr left nameTok.value, p)

/-- `parseArrayIndexExpr`. -/
def parseArrayIndexExpr : Nat → Expr → ParserState → Except String (Expr × ParserState)
  | 0, _, _ => .error outOfFuel
  | fuel+1, left, p => do
    let (_, p) ← consume [.OPEN_BRACKET] p
    let (indexExpr, p) ← parseExpr fuel 0 p
    let (_, p) ← consume [.CLOSE_BRACKET] p
    .ok (.ArrayIndexExpr left indexExpr, p)
  termination_by structural fuel => fuel

/-- `parseReturnStmt`. -/
def parseReturnStmt : Nat → ParserState → Except String (Stmt × ParserState)
  | 0, _ => .error outOfFuel
  | fuel+1, p => do
    let (_, p) ← consume [.RETURN] p
    let (terminates, p) := statementTerminates p
    if terminates then do
      let p ← consumeStatementTerminator p
      .ok (.ReturnStmt none, p)
    else do
      let (expr, p) ← parseExpr fuel 0 p
      let p ← consumeStatementTerminator p
      .ok (.ReturnStmt (some expr), p)
  termination_by structural fuel => fuel

/-- `parseExpressionStmt`: records whether the statement ended in an
explicit semicolon. -/
def parseExpressionStmt : Nat → ParserState → Except String (Stmt × ParserState)
  | 0, _ => .error outOfFuel
  | fuel+1, p => do
    let (expr, p) ← parseExpr fuel 0 p
    let (t0, p) := peek p
    let explicitSemicolon := t0.type = .SEMICOLON
    let p ← consumeStatementTerminator p
    .ok (.ExpressionStmt expr explicitSemicolon, p)
  termination_by structural fuel => fuel

/-- `parseBlockStmt` (returns the statement list of the `ast.BlockStmt`). -/
def parseBlockStmt : Nat → ParserState → Except String (List Stmt × ParserState)
  | 0, _ => .error outOfFuel
  | fuel+1, p => parseBlockStmtLoop fuel [] p
  termination_by structural fuel => fuel

/-- The statement loop of `parseBlockStmt` (`for` until EOF or `}`). -/
def parseBlockStmtLoop : Nat → List Stmt → ParserState → Except String (List Stmt × ParserState)
  | 0, _, _ => .error outOfFuel
  | fuel+1, acc, p => do
    let (t0, p) := peek p
    if t0.type = .EOF || t0.type = .CLOSE_CURLY then .ok (acc, p)
    else do
      let (s, p) ← parseStmt fuel p
      parseBlockStmtLoop fuel (acc ++ [s]) p
  termination_by structural fuel => fuel

/-- `parseBlockExpr`: builds a block expression from a block statement;
when the last statement is an expression-statement, its expression
becomes the result (the `ExplicitSemicolon` flag is not consulted). -/
def parseBlockExpr : Nat → ParserState → Except String (Expr × ParserState)
  | 0, _ => .error outOfFuel
  | fuel+1, p => do
    let (statements, p) ← parseBlockStmt fuel p
    match statements.getLast? with
    | some (Stmt.ExpressionStmt e _) =>
      .ok (.BlockExpr statements.dropLast e, p)
    | _ =>
      .ok (.BlockExpr statements Expr.UnitExpr, p)
  termination_by structural fuel => fuel

/-- `parseUseDeclStmt` (mandatory trailing comma). -/
def parseUseDeclStmt : Nat → ParserState → Except String (Stmt × ParserState)
  | 0, _ => .error outOfFuel
  | fuel+1, p => do
    let (_, p) ← consume [.USE] p
    let (_, p) ← consume [.OPEN_CURLY] p
    let (specs, p) ← parseUseSpecs fuel [] p
    let (_, p) ← consume [.CLOSE_CURLY] p
    .ok (.UseDeclStmt specs, p)

/-- The spec loop of `parseUseDeclStmt`. -/
def parseUseSpecs : Nat → List (String × String) → ParserState → Except String (List (String × String) × ParserState)
  | 0, _, _ => .error outOfFuel
  | fuel+1, acc, p => do
    let (t0, p) := peek p
    if t0.type = .CLOSE_CURLY then .ok (acc, p)
    else do
      let (nameTok, p) ← consume [.IDENTIFIER] p
      let (_, p) ← consume [.COLON] p
      let (moduleTok, p) ← consume [.IDENTIFIER] p
      let (_, p) ← consume [.COMMA] p
      parseUseSpecs fuel (acc ++ [(nameTok.value, moduleTok.value)]) p
  termination_by structural fuel => fuel

/-- The statement loop of `Parse` (`for p.peek().Type != EOF`). -/
def parseProgram : Nat → List Stmt → ParserState → Except String (List Stmt × ParserState)
  | 0, _, _ => .error outOfFuel
  | fuel+1, acc, p => do
    let (t0, p) := peek p
    if t0.type = .EOF then .ok (acc, p)
    else do
      let (s, p) ← parseStmt fuel p
      parseProgram fuel (acc ++ [s]) p
  termination_by structural fuel => fuel

end

/-- `Parse`: converts a token list into the program's statement list
(the `ast.BlockStmt` root).  The fuel bound is generous; parsing
consumes at least one token between recursive descents. -/
def Parse (tokens : List Token) : Except String (List Stmt) :=
  match parseProgram (tokens.length * 8 + 64) [] (newParser tokens) with
  | .error e => .error e
  | .ok (stmts, _) => .ok stmts

end Parser

/-! ### Types (`typechecker/types.go`, the revision with `UnitType`)

The Go `Type` interface becomes the inductive `Ty`; a nil-able Go
`Type` value becomes `Option Ty`.  `StructType{Name, Members}` and
`FuncType{ReturnType, ParamTypes}` are Go structs that implement the
interface; they are modelled by the structures `StructTy`/`FuncTy` and
embed into `Ty` through `StructTy.toTy`/`FuncTy.toTy` (Go's implicit
upcast).  `StructType.Members` is a Go map; it is modelled as an
association list (first hit wins, insertion order preserved). -/

inductive Ty where
  | unit
  | prim (name : String)
  | array (elemType : Ty)
  | func (returnType : Option Ty) (paramTypes : List Ty)
  | struct (name : String) (members : List (String × Ty))
deriving BEq

structure StructTy where
  name : String
  members : List (String × Ty)
deriving BEq

structure FuncTy where
  returnType : Option Ty
  paramTypes : List Ty
deriving BEq

def StructTy.toTy (s : StructTy) : Ty := .struct s.name s.members

def FuncTy.toTy (f : FuncTy) : Ty := .func f.returnType f.paramTypes

mutual
/-- The `String()` methods of the `Type` implementations. -/
def tyString : Ty → String
  | .unit => "()"
  | .prim name => name
  | .array elemType => tyString elemType ++ "[]"
  | .func returnType paramTypes =>
    "func(" ++ tyParamsString paramTypes ++ "):" ++
      (match returnType with
       | some t => tyString t
       | none => "<nil>")
  | .struct name _ => name
/-- The comma-joined parameter list built by `FuncType.String`. -/
def tyParamsString : List Ty → String
  | [] => ""
  | [t] => tyString t
  | t :: rest => tyString t ++ "," ++ tyParamsString rest
end

/-- `Type.String` on a nil-able value (Go's `fmt` prints `<nil>`). -/
def optTyString : Option Ty → String
  | some t => tyString t
  | none => "<nil>"

mutual
/-- The `Equals` methods: nominal for structs (name comparison only),
structural for arrays and functions.  A `func` type with a nil
`ReturnType` would make the Go code dereference nil; such a value is
never built by the front-end, and the embedding compares the
`ReturnType` options componentwise. -/
def tyEquals : Ty → Ty → Bool
  | .unit, other =>
    match other with
    | .unit => true
    | _ => false
  | .prim name, other =>
    match other with
    | .prim m => name == m
    | _ => false
  | .array elemType, other =>
    match other with
    | .array b => tyEquals elemType b
    | _ => false
  | .func returnType paramTypes, other =>
    match other with
    | .func r2 p2 =>
      if paramTypes.length ≠ p2.length then false
      else
        (match returnType, r2 with
         | some a, some b => tyEquals a b
         | none, none => true
         | _, _ => false)
        && tyListEquals paramTypes p2
    | _ => false
  | .struct name _, other =>
    match other with
    | .struct m _ => name == m
    | _ => false
/-- Pairwise `Equals` on parameter lists. -/
def tyListEquals : List Ty → List Ty → Bool
  | [], [] => true
  | a :: as1, b :: bs1 => tyEquals a b && tyListEquals as1 bs1
  | _, _ => false
end

/-- `Equals` called with a possibly-nil argument (every `Equals`
implementation type-asserts its argument and yields false on nil). -/
def tyEqualsOpt (t : Ty) : Option Ty → Bool
  | some u => tyEquals t u
  | none => false

/-- `IsUnit` on a nil-able `Type` (nil fails the type assertion). -/
def IsUnit : Option Ty → Bool
  | some .unit => true
  | _ => false

/-- `IsPrimitive` on a nil-able `Type`. -/
def IsPrimitive (t : Option Ty) (name : String) : Bool :=
  match t with
  | some (.prim n) => n == name
  | _ => false

/-- `IsNumeric` on a nil-able `Type`. -/
def IsNumeric : Option Ty → Bool
  | some (.prim n) => n == "i8" || n == "i32" || n == "i64" || n == "f32" || n == "f64"
  | _ => false

/-! ### Symbol table (`typechecker/resolver.go`)

`SymbolTable` holds three Go maps and a parent pointer.  The maps are
association lists; `Define…` prepends (so that it shadows any older
entry, like a map overwrite) and `Lookup…` takes the first hit, then
recurses into the parent.  The `vars` map stores nil-able `Type`
values (`CheckVarDeclAssignExpr` can store nil), hence `Option Ty`. -/

inductive SymbolTable where
  | mk (parent : Option SymbolTable) (vars : List (String × Option Ty))
      (structTypes : List (String × StructTy)) (funcs : List (String × FuncTy))

/-- `NewSymbolTable`. -/
def newSymbolTable (parent : Option SymbolTable) : SymbolTable :=
  .mk parent [] [] []

/-- `DefineVar`. -/
def defineVar : SymbolTable → String → Option Ty → SymbolTable
  | .mk parent vars structTypes funcs, name, varType =>
    .mk parent ((name, varType) :: vars) structTypes funcs

/-- `LookupVarType`: first the current scope, then the parent chain.
The outer `Option` is the `bool` result; the inner one is the
nil-ability of the stored `Type`. -/
def lookupVarType : SymbolTable → String → Option (Option Ty)
  | .mk parent vars _ _, name =>
    match vars.lookup name with
    | some t => some t
    | none =>
      match parent with
      | some par => lookupVarType par name
      | none => none

/-- `DefineStructType`. -/
def defineStructType : SymbolTable → String → StructTy → SymbolTable
  | .mk parent vars structTypes funcs, name, structType =>
    .mk parent vars ((name, structType) :: structTypes) funcs

/-- `LookupStructType`. -/
def lookupStructType : SymbolTable → String → Option StructTy
  | .mk parent _ structTypes _, name =>
    match structTypes.lookup name with
    | some s => some s
    | none =>
      match parent with
      | some par => lookupStructType par name
      | none => none

/-- `DefineFunc`. -/
def defineFunc : SymbolTable → String → FuncTy → SymbolTable
  | .mk parent vars structTypes funcs, name, funcType =>
    .mk parent vars structTypes ((name, funcType) :: funcs)

/-- `LookupFunc`. -/
def lookupFunc : SymbolTable → String → Option FuncTy
  | .mk parent _ _ funcs, name =>
    match funcs.lookup name with
    | some f => some f
    | none =>
      match parent with
      | some par => lookupFunc par name
      | none => none

namespace Resolver

/-- `r.Err`: errors are wrapped in a colored `Resolve Error:` prefix. -/
def resolveErr (msg : String) : String :=
  "\x1b[31mResolve Error: " ++ msg ++ "\x1b[0m"

/-- The resolver's built-in primitive types (`NewResolver`). -/
def primitives : List (String × Ty) := [
  ("bool", .prim "bool"), ("string", .prim "string"),
  ("i8", .prim "i8"), ("i32", .prim "i32"), ("i64", .prim "i64"),
  ("f32", .prim "f32"), ("f64", .prim "f64")]

mutual
/-- `ResolveType`: converts an AST type expression to a `Type`,
returning nil (`none`) and accumulating errors on failure. -/
def resolveType (st : SymbolTable) : TypeExpr → Option Ty × List String
  | .NamedTypeExpr typeName =>
    match primitives.lookup typeName with
    | some prim => (some prim, [])
    | none =>
      match lookupStructType st typeName with
      | some structType => (some structType.toTy, [])
      | none => (none, [resolveErr ("undefined type: " ++ typeName)])
  | .ArrayTypeExpr underlyingType =>
    match resolveType st underlyingType with
    | (none, errs) => (none, errs)
    | (some elemType, errs) => (some (.array elemType), errs)
  | .FuncTypeExpr returnType paramTypes =>
    let (resolvedParams, perrs) := resolveTypeList st paramTypes
    match resolveType st returnType with
    | (none, rerrs) => (none, perrs ++ rerrs)
    | (some rt, rerrs) => (some (.func (some rt) resolvedParams), perrs ++ rerrs)
/-- The parameter loop of `ResolveType` on function types: a parameter
type that fails to resolve is skipped (`continue`). -/
def resolveTypeList (st : SymbolTable) : List TypeExpr → List Ty × List String
  | [] => ([], [])
  | te :: rest =>
    let (t, errs) := resolveType st te
    let (ts, errs2) := resolveTypeList st rest
    match t with
    | some ty => (ty :: ts, errs ++ errs2)
    | none => (ts, errs ++ errs2)
end

/-- The member loop of `resolveStructDeclStmt`.  `members` and
`memberNames` are always updated together in the Go code, so the set
of seen names is exactly the key set of the accumulated member map. -/
def resolveStructMembers (st : SymbolTable) (structName : String) :
    List TypedIdent → List (String × Ty) → List (String × Ty) × List String
  | [], mems => (mems, [])
  | member :: rest, mems =>
    if (mems.lookup member.name).isSome then
      let (mems2, errs) := resolveStructMembers st structName rest mems
      (mems2, resolveErr ("duplicate member " ++ member.name ++ " in struct " ++ structName) :: errs)
    else
      match resolveType st member.type with
      | (some memberType, errs1) =>
        let (mems2, errs2) := resolveStructMembers st structName rest (mems ++ [(member.name, memberType)])
        (mems2, errs1 ++ errs2)
      | (none, errs1) =>
        let (mems2, errs2) := resolveStructMembers st structName rest mems
        (mems2, errs1 ++ errs2)

/-- `resolveStructDeclStmt`: reports a redeclaration when
`LookupStructType` finds the name — note that `LookupStructType`
searches the whole parent chain, not only the current scope. -/
def resolveStructDeclStmt (st : SymbolTable) (name : String) (members : List TypedIdent) :
    SymbolTable × List String :=
  match lookupStructType st name with
  | some _ => (st, [resolveErr ("redeclared struct " ++ name ++ " in the same scope")])
  | none =>
    let (mems, errs) := resolveStructMembers st name members []
    (defineStructType st name ⟨name, mems⟩, errs)

/-- The parameter loop of `resolveFuncDeclStmt`: resolves parameter
types in order against the enclosing scope; the first failure makes the
whole declaration return early (`none`). -/
def resolveParams (st : SymbolTable) : List TypedIdent → Option (List Ty) × List String
  | [] => (some [], [])
  | param :: rest =>
    match resolveType st param.type with
    | (none, errs) => (none, errs)
    | (some paramType, errs) =>
      match resolveParams st rest with
      | (none, errs2) => (none, errs ++ errs2)
      | (some ts, errs2) => (some (paramType :: ts), errs ++ errs2)

mutual
/-- `resolveStmt`: dispatch on the statement kind.  The Go `switch` has
no case for `UseDeclStmt`, which therefore hits the default
`unknown statement type` error. -/
def resolveStmt : Nat → SymbolTable → Stmt → SymbolTable × List String
  | 0, st, _ => (st, [outOfFuel])
  | fuel+1, st, stmt =>
    match stmt with
    | .BlockStmt statements => resolveBlockStmt fuel st statements
    | .VarDeclStmt v initVal => resolveVarDeclStmt fuel st v initVal
    | .StructDeclStmt name members => resolveStructDeclStmt st name members
    | .FuncDeclStmt name params returnType body =>
      resolveFuncDeclStmt fuel st name params returnType body
    | .IfStmt cond thenStmt elseStmt => resolveIfStmt fuel st cond thenStmt elseStmt
    | .ForStmt init cond iter body => resolveForStmt fuel st init cond iter body
    | .ReturnStmt expr =>
      (st, match expr with
           | some e => resolveExpr fuel st e
           | none => [])
    | .ExpressionStmt expr _ => (st, resolveExpr fuel st expr)
    | .UseDeclStmt _ => (st, [resolveErr "unknown statement type"])
  termination_by structural fuel => fuel

/-- `resolveBlockStmt`: resolves the statements in a fresh child scope
and restores the previous scope afterwards. -/
def resolveBlockStmt : Nat → SymbolTable → List Stmt → SymbolTable × List String
  | 0, st, _ => (st, [outOfFuel])
  | fuel+1, st, statements =>
    let child := newSymbolTable (some st)
    let (_, errs) := resolveStmtList fuel child statements
    (st, errs)
  termination_by structural fuel => fuel

/-- The statement loop of `resolveBlockStmt`, threading the scope. -/
def resolveStmtList : Nat → SymbolTable → List Stmt → SymbolTable × List String
  | 0, st, _ => (st, [outOfFuel])
  | fuel+1, st, stmts =>
    match stmts with
    | [] => (st, [])
    | s :: rest =>
      let (st1, errs1) := resolveStmt fuel st s
      let (st2, errs2) := resolveStmtList fuel st1 rest
      (st2, errs1 ++ errs2)
  termination_by structural fuel => fuel

/-- `resolveVarDeclStmt`: no redeclaration check of any kind — the
variable is simply (re)defined in the current scope. -/
def resolveVarDeclStmt : Nat → SymbolTable → TypedIdent → Option Expr → SymbolTable × List String
  | 0, st, _, _ => (st, [outOfFuel])
  | fuel+1, st, v, initVal =>
    match resolveType st v.type with
    | (none, errs) => (st, errs)
    | (some declaredType, errs) =>
      let errs2 :=
        match initVal with
        | some e => resolveExpr fuel st e
        | none => []
      (defineVar st v.name (some declaredType), errs ++ errs2)

/-- `resolveFuncDeclStmt`: reports a redeclaration when `LookupFunc`
finds the name anywhere in the parent chain; otherwise defines the
function and resolves the body in a child scope seeded with the
parameters.  In the Go code `funcBodyTable`'s parent pointer aliases
the table that `DefineFunc` mutates afterwards, so the body scope's
parent contains the function. -/
def resolveFuncDeclStmt : Nat → SymbolTable → String → List TypedIdent → Option TypeExpr → List Stmt → SymbolTable × List String
  | 0, st, _, _, _, _ => (st, [outOfFuel])
  | fuel+1, st, name, params, returnTypeExpr, body =>
    match lookupFunc st name with
    | some _ => (st, [resolveErr ("redeclared function " ++ name ++ " in the same scope")])
    | none =>
      let (returnTypeOpt, rerrs) :=
        match returnTypeExpr with
        | none => (some Ty.unit, [])
        | some te => resolveType st te
      match returnTypeOpt with
      | none => (st, rerrs)
      | some returnType =>
        match resolveParams st params with
        | (none, perrs) => (st, rerrs ++ perrs)
        | (some paramTypes, perrs) =>
          let st2 := defineFunc st name ⟨some returnType, paramTypes⟩
          let bodyTable :=
            (params.zip paramTypes).foldl
              (fun tb pr => defineVar tb pr.1.name (some pr.2))
              (newSymbolTable (some st2))
          let (_, berrs) := resolveBlockStmt fuel bodyTable body
          (st2, rerrs ++ perrs ++ berrs)
  termination_by structural fuel => fuel

/-- `resolveIfStmt` (definitions made by a braceless branch leak into
the current scope, as in the Go code). -/
def resolveIfStmt : Nat → SymbolTable → Expr → Stmt → Option Stmt → SymbolTable × List String
  | 0, st, _, _, _ => (st, [outOfFuel])
  | fuel+1, st, cond, thenStmt, elseStmt =>
    let cerrs := resolveExpr fuel st cond
    let (st1, terrs) := resolveStmt fuel st thenStmt
    match elseStmt with
    | some els =>
      let (st2, eerrs) := resolveStmt fuel st1 els
      (st2, cerrs ++ terrs ++ eerrs)
    | none => (st1, cerrs ++ terrs)
  termination_by structural fuel => fuel

/-- `resolveForStmt`. -/
def resolveForStmt : Nat → SymbolTable → Stmt → Expr → Stmt → List Stmt → SymbolTable × List String
  | 0, st, _, _, _, _ => (st, [outOfFuel])
  | fuel+1, st, init, cond, iter, body =>
    let (st1, ierrs) := resolveStmt fuel st init
    let cerrs := resolveExpr fuel st1 cond
    let (st2, iterrs) := resolveStmt fuel st1 iter
    let (st3, berrs) := resolveBlockStmt fuel st2 body
    (st3, ierrs ++ cerrs ++ iterrs ++ berrs)
  termination_by structural fuel => fuel

/-- `resolveExpr`: checks identifier references; never modifies the
scope (`VarDeclAssignExpr` defers its definition to the checker).  The
Go `switch` has no case for `UnitExpr`, `BlockExpr` or `IfExpr`, which
therefore hit the default `unknown expression type` error. -/
def resolveExpr : Nat → SymbolTable → Expr → List String
  | 0, _, _ => [outOfFuel]
  | fuel+1, st, expr =>
    match expr with
    | .NumberLiteralExpr _ | .StringLiteralExpr _ | .BoolLiteralExpr _ => []
    | .IdentExpr value =>
      match lookupVarType st value with
      | some _ => []
      | none =>
        match lookupStructType st value with
        | some _ => []
        | none =>
          match lookupFunc st value with
          | some _ => []
          | none => [resolveErr ("undefined identifier: " ++ value)]
    | .BinaryExpr lhs _ rhs => resolveExpr fuel st lhs ++ resolveExpr fuel st rhs
    | .UnaryExpr _ rhs => resolveExpr fuel st rhs
    | .GroupExpr e => resolveExpr fuel st e
    | .FuncCallExpr func args => resolveExpr fuel st func ++ resolveExprList fuel st args
    | .StructLiteralExpr structE members =>
      resolveExpr fuel st structE ++ resolveMemberValues fuel st members
    | .StructMemberExpr structE _ => resolveExpr fuel st structE
    | .ArrayIndexExpr array index => resolveExpr fuel st array ++ resolveExpr fuel st index
    | .AssignExpr assigne _ value => resolveExpr fuel st assigne ++ resolveExpr fuel st value
    | .VarDeclAssignExpr _ value => resolveExpr fuel st value
    | .UnitExpr | .BlockExpr _ _ | .IfExpr _ _ _ =>
      [resolveErr "unknown expression type"]
  termination_by structural fuel => fuel

/-- The argument loop of `resolveExpr` on calls. -/
def resolveExprList : Nat → SymbolTable → List Expr → List String
  | 0, _, _ => [outOfFuel]
  | fuel+1, st, exprs =>
    match exprs with
    | [] => []
    | e :: rest => resolveExpr fuel st e ++ resolveExprList fuel st rest
  termination_by structural fuel => fuel

/-- The member-value loop of `resolveExpr` on struct literals. -/
def resolveMemberValues : Nat → SymbolTable → List (String × Expr) → List String
  | 0, _, _ => [outOfFuel]
  | fuel+1, st, members =>
    match members with
    | [] => []
    | m :: rest => resolveExpr fuel st m.2 ++ resolveMemberValues fuel st rest
  termination_by structural fuel => fuel

end

/-- `Resolve`: resolves the module in a child scope of the fresh root
scope and returns the root scope (which the module's definitions never
reach, since `resolveBlockStmt` discards its child) and the errors. -/
def Resolve (fuel : Nat) (module : List Stmt) : SymbolTable × List String :=
  resolveBlockStmt fuel (newSymbolTable none) module

end Resolver

namespace Checker

/-! ### Type checker (`typechecker/type_checker.go`, the newest revision,
which reuses the resolver's `SymbolTable` and keys return checking on
`currentFuncReturnType`).

Only the expression checker and `CheckReturnStmt` are embedded (the
statement walker needs the resolver's per-node scope map, which none of
the claims touch).  `tc.symbolTable` is threaded explicitly because
`CheckVarDeclAssignExpr` writes to it; every function returns the list
of errors it appends.  The one place where the Go code can dereference
a nil interface (`assigneType.Equals` in `CheckAssignExpr`) is
modelled as `Except.error`. -/

/-- `tc.Err`: errors are wrapped in a colored `Type Error:` prefix. -/
def typeErr (msg : String) : String :=
  "\x1b[31mType Error: " ++ msg ++ "\x1b[0m"

/-- The checker result: the expression's type (nil-able), the possibly
updated symbol table, and the errors appended, in order. -/
abbrev CheckResult := Except String (Option Ty × SymbolTable × List String)

/-- Initializes `assignedMembers` with every struct member unassigned. -/
def initAssigned (structMembers : List (String × Ty)) : List (String × Bool) :=
  structMembers.map (fun m => (m.1, false))

/-- `assignedMembers[name]` (a missing key reads as false). -/
def assignedFlag (assigned : List (String × Bool)) (name : String) : Bool :=
  (assigned.lookup name).getD false

/-- `assignedMembers[name] = true`.  The name is always present (the
flags were initialized from the struct's member map and the key was
found there), so updating the first occurrence suffices. -/
def setAssigned : List (String × Bool) → String → List (String × Bool)
  | [], _ => []
  | (k, b) :: rest, name =>
    if k = name then (k, true) :: rest else (k, b) :: setAssigned rest name

/-- The final loop of `CheckStructLiteralExpr`: one error per member
that was never (successfully) assigned. -/
def unassignedErrors : List (String × Bool) → List String
  | [] => []
  | (k, b) :: rest =>
    (if b then [] else [typeErr ("struct member " ++ k ++ " is not assigned a value")])
      ++ unassignedErrors rest

mutual

/-- `CheckExpr`.  The Go `switch` has no case for `UnitExpr`,
`BlockExpr` or `IfExpr`, which therefore hit the default
`unknown expression type` error. -/
def CheckExpr : Nat → SymbolTable → Expr → CheckResult
  | 0, _, _ => .error outOfFuel
  | fuel+1, tbl, expr =>
    match expr with
    | .NumberLiteralExpr _ => .ok (some (.prim "i32"), tbl, [])
    | .StringLiteralExpr _ => .ok (some (.prim "string"), tbl, [])
    | .BoolLiteralExpr _ => .ok (some (.prim "bool"), tbl, [])
    | .IdentExpr value =>
      match lookupVarType tbl value with
      | some varType => .ok (varType, tbl, [])
      | none =>
        match lookupStructType tbl value with
        | some structType => .ok (some structType.toTy, tbl, [])
        | none =>
          match lookupFunc tbl value with
          | some funcType => .ok (some funcType.toTy, tbl, [])
          | none => .ok (none, tbl, [typeErr ("undefined variable: " ++ value)])
    | .BinaryExpr lhs operator rhs => CheckBinaryExpr fuel tbl lhs operator rhs
    | .UnaryExpr operator rhs => CheckUnaryExpr fuel tbl operator rhs
    | .GroupExpr e => CheckExpr fuel tbl e
    | .FuncCallExpr func args => CheckFuncCallExpr fuel tbl func args
    | .StructLiteralExpr structE members => CheckStructLiteralExpr fuel tbl structE members
    | .StructMemberExpr structE member => CheckStructMemberExpr fuel tbl structE member
    | .ArrayIndexExpr array index => CheckArrayIndexExpr fuel tbl array index
    | .AssignExpr assigne operator value => CheckAssignExpr fuel tbl assigne operator value
    | .VarDeclAssignExpr name value => CheckVarDeclAssignExpr fuel tbl name value
    | .UnitExpr | .BlockExpr _ _ | .IfExpr _ _ _ =>
      .ok (none, tbl, [typeErr "unknown expression type"])
  termination_by structural fuel => fuel

/-- `CheckBinaryExpr`. -/
def CheckBinaryExpr : Nat → SymbolTable → Expr → Token → Expr → CheckResult
  | 0, _, _, _, _ => .error outOfFuel
  | fuel+1, tbl, lhs, operator, rhs => do
    let (leftType, tbl, errs1) ← CheckExpr fuel tbl lhs
    let (rightType, tbl, errs2) ← CheckExpr fuel tbl rhs
    let errs := errs1 ++ errs2
    match leftType, rightType with
    | some lt, some rt =>
      match operator.type with
      | .PLUS | .DASH | .STAR | .SLASH | .PERCENT =>
        if IsNumeric (some lt) && IsNumeric (some rt) then
          .ok (some lt, tbl, errs)
        else if operator.type = .PLUS && IsPrimitive (some lt) "string" && IsPrimitive (some rt) "string" then
          .ok (some (.prim "string"), tbl, errs)
        else
          .ok (none, tbl, errs ++ [typeErr ("invalid operands for " ++ operator.value ++ ": " ++ tyString lt ++ " and " ++ tyString rt)])
      | .DOUBLE_EQUALS | .NOT_EQUALS =>
        if !(tyEquals lt rt) then
          .ok (none, tbl, errs ++ [typeErr ("cannot compare " ++ tyString lt ++ " and " ++ tyString rt)])
        else .ok (some (.prim "bool"), tbl, errs)
      | .LESS | .LESS_EQUALS | .GREATER | .GREATER_EQUALS =>
        if IsNumeric (some lt) && IsNumeric (some rt) then
          .ok (some (.prim "bool"), tbl, errs)
        else
          .ok (none, tbl, errs ++ [typeErr ("invalid operands for " ++ operator.value ++ ": " ++ tyString lt ++ " and " ++ tyString rt)])
      | .OR | .AND =>
        if IsPrimitive (some lt) "bool" && IsPrimitive (some rt) "bool" then
          .ok (some (.prim "bool"), tbl, errs)
        else
          .ok (none, tbl, errs ++ [typeErr ("invalid operands for " ++ operator.value ++ ": " ++ tyString lt ++ " and " ++ tyString rt)])
      | _ =>
        .ok (none, tbl, errs ++ [typeErr ("unsupported binary operator: " ++ operator.value)])
    | _, _ => .ok (none, tbl, errs)
  termination_by structural fuel => fuel

/-- `CheckUnaryExpr`: unary `+`/`-` require a numeric operand and keep
its type; unary `!` requires `bool` and yields `bool`. -/
def CheckUnaryExpr : Nat → SymbolTable → Token → Expr → CheckResult
  | 0, _, _, _ => .error outOfFuel
  | fuel+1, tbl, operator, rhs => do
    let (operandType, tbl, errs) ← CheckExpr fuel tbl rhs
    match operandType with
    | none => .ok (none, tbl, errs)
    | some t =>
      match operator.type with
      | .PLUS | .DASH =>
        if IsNumeric (some t) then .ok (some t, tbl, errs)
        else .ok (none, tbl, errs ++ [typeErr ("invalid operand for " ++ operator.value ++ ": " ++ tyString t)])
      | .NOT =>
        if IsPrimitive (some t) "bool" then .ok (some (.prim "bool"), tbl, errs)
        else .ok (none, tbl, errs ++ [typeErr ("invalid operand for " ++ operator.value ++ ": " ++ tyString t)])
      | _ =>
        .ok (none, tbl, errs ++ [typeErr ("unsupported unary operator: " ++ operator.value)])
  termination_by structural fuel => fuel

/-- `CheckFuncCallExpr`. -/
def CheckFuncCallExpr : Nat → SymbolTable → Expr → List Expr → CheckResult
  | 0, _, _, _ => .error outOfFuel
  | fuel+1, tbl, func, args => do
    let (funcType, tbl, errs) ← CheckExpr fuel tbl func
    match funcType with
    | none => .ok (none, tbl, errs)
    | some (.func returnType paramTypes) =>
      if args.length ≠ paramTypes.length then
        .ok (none, tbl, errs ++ [typeErr "wrong number of arguments"])
      else do
        let (okArgs, tbl, errs2) ← CheckFuncCallArgs fuel tbl paramTypes args 0
        match okArgs with
        | false => .ok (none, tbl, errs ++ errs2)
        | true => .ok (returnType, tbl, errs ++ errs2)
    | some t =>
      .ok (none, tbl, errs ++ [typeErr ("cannot call non-function value of type " ++ tyString t)])
  termination_by structural fuel => fuel

/-- The argument loop of `CheckFuncCallExpr`: the first nil argument
type or mismatch aborts the call check with a nil result. -/
def CheckFuncCallArgs : Nat → SymbolTable → List Ty → List Expr → Nat → Except String (Bool × SymbolTable × List String)
  | 0, _, _, _, _ => .error outOfFuel
  | fuel+1, tbl, paramTypes, args, idx =>
    match paramTypes, args with
    | paramType :: restParams, arg :: restArgs => do
      let (argType, tbl, errs) ← CheckExpr fuel tbl arg
      match argType with
      | none => .ok (false, tbl, errs)
      | some at1 =>
        if !(tyEquals paramType at1) then
          .ok (false, tbl, errs ++ [typeErr ("argument " ++ toString (idx + 1) ++ " type mismatch: expected " ++ tyString paramType ++ ", found " ++ tyString at1)])
        else do
          let (okRest, tbl, errs2) ← CheckFuncCallArgs fuel tbl restParams restArgs (idx + 1)
          .ok (okRest, tbl, errs ++ errs2)
    | _, _ => .ok (true, tbl, [])
  termination_by structural fuel => fuel

/-- `CheckStructLiteralExpr`: the head must denote a struct type; the
member assignments are then checked against the struct's member map,
and every member left unassigned is reported.  The struct type is
returned even when errors were emitted. -/
def CheckStructLiteralExpr : Nat → SymbolTable → Expr → List (String × Expr) → CheckResult
  | 0, _, _, _ => .error outOfFuel
  | fuel+1, tbl, structE, members => do
    let (structTypeValue, tbl, errs0) ← CheckExpr fuel tbl structE
    match structTypeValue with
    | some (.struct structName structMembers) => do
      let (assigned, tbl, errs1) ←
        CheckStructLiteralMembers fuel tbl structName structMembers members (initAssigned structMembers)
      .ok (some (.struct structName structMembers), tbl, errs0 ++ errs1 ++ unassignedErrors assigned)
    | _ =>
      .ok (none, tbl, errs0 ++ [typeErr ("expression of type " ++ optTyString structTypeValue ++ " cannot be used as a struct")])
  termination_by structural fuel => fuel

/-- The member loop of `CheckStructLiteralExpr`: an unknown member, a
duplicate assignment, a nil value type, or a mismatched value type each
produce one error and `continue`; only a fully successful assignment
marks the member as assigned. -/
def CheckStructLiteralMembers : Nat → SymbolTable → String → List (String × Ty) → List (String × Expr) → List (String × Bool) → Except String (List (String × Bool) × SymbolTable × List String)
  | 0, _, _, _, _, _ => .error outOfFuel
  | fuel+1, tbl, structName, structMembers, members, assigned =>
    match members with
    | [] => .ok (assigned, tbl, [])
    | (memberName, memberValue) :: rest =>
      match structMembers.lookup memberName with
      | none => do
        let (assigned2, tbl, errs) ←
          CheckStructLiteralMembers fuel tbl structName structMembers rest assigned
        .ok (assigned2, tbl, typeErr (memberName ++ " is not a member of struct " ++ structName) :: errs)
      | some assigneType =>
        if assignedFlag assigned memberName then do
          let (assigned2, tbl, errs) ←
            CheckStructLiteralMembers fuel tbl structName structMembers rest assigned
          .ok (assigned2, tbl, typeErr ("struct member " ++ memberName ++ " assigned multiple times") :: errs)
        else do
          let (assignedValueType, tbl, errs1) ← CheckExpr fuel tbl memberValue
          match assignedValueType with
          | none => do
            let (assigned2, tbl, errs2) ←
              CheckStructLiteralMembers fuel tbl structName structMembers rest assigned
            .ok (assigned2, tbl, errs1 ++ errs2)
          | some vt =>
            if !(tyEquals assigneType vt) then do
              let (assigned2, tbl, errs2) ←
                CheckStructLiteralMembers fuel tbl structName structMembers rest assigned
              .ok (assigned2, tbl, errs1 ++ (typeErr ("cannot assign " ++ tyString vt ++ " to " ++ tyString assigneType ++ " of struct member " ++ memberName) :: errs2))
            else do
              let (assigned2, tbl, errs2) ←
                CheckStructLiteralMembers fuel tbl structName structMembers rest (setAssigned assigned memberName)
              .ok (assigned2, tbl, errs1 ++ errs2)
  termination_by structural fuel => fuel

/-- `CheckStructMemberExpr`. -/
def CheckStructMemberExpr : Nat → SymbolTable → Expr → String → CheckResult
  | 0, _, _, _ => .error outOfFuel
  | fuel+1, tbl, structE, memberName => do
    let (structTypeValue, tbl, errs) ← CheckExpr fuel tbl structE
    match structTypeValue with
    | some (.struct structName structMembers) =>
      match structMembers.lookup memberName with
      | none => .ok (none, tbl, errs ++ [typeErr (memberName ++ " is not a member of struct " ++ structName)])
      | some memberType => .ok (some memberType, tbl, errs)
    | _ =>
      .ok (none, tbl, errs ++ [typeErr ("expression of type " ++ optTyString structTypeValue ++ " cannot be used as a struct")])
  termination_by structural fuel => fuel

/-- `CheckArrayIndexExpr`: the index is checked (and must be numeric)
before the receiver. -/
def CheckArrayIndexExpr : Nat → SymbolTable → Expr → Expr → CheckResult
  | 0, _, _, _ => .error outOfFuel
  | fuel+1, tbl, array, index => do
    let (indexType, tbl, errs1) ← CheckExpr fuel tbl index
    if !(IsNumeric indexType) then
      .ok (none, tbl, errs1 ++ [typeErr "array index expression does not result in a numeric type"])
    else do
      let (arrayExprType, tbl, errs2) ← CheckExpr fuel tbl array
      match arrayExprType with
      | none => .ok (none, tbl, errs1 ++ errs2)
      | some (.array elemType) => .ok (some elemType, tbl, errs1 ++ errs2)
      | some _ => .ok (none, tbl, errs1 ++ errs2 ++ [typeErr "cannot index non-array type"])
  termination_by structural fuel => fuel

/-- `CheckAssignExpr`: returns the assignee's type (nil included) even
after errors.  With `=`, a nil assignee type makes the Go code call a
method on a nil interface — a runtime panic, modelled as an error. -/
def CheckAssignExpr : Nat → SymbolTable → Expr → Token → Expr → CheckResult
  | 0, _, _, _, _ => .error outOfFuel
  | fuel+1, tbl, assigne, operator, value => do
    let (assigneType, tbl, errs1) ← CheckExpr fuel tbl assigne
    let (assignedValueType, tbl, errs2) ← CheckExpr fuel tbl value
    let errs3 ←
      match operator.type with
      | .EQUALS =>
        match assigneType with
        | none => Except.error "runtime panic: nil pointer dereference"
        | some at1 =>
          if !(tyEqualsOpt at1 assignedValueType) then
            pure [typeErr ("cannot assign " ++ optTyString assignedValueType ++ " to " ++ tyString at1)]
          else pure []
      | .PLUS_EQUALS =>
        let numeric := IsNumeric assigneType && IsNumeric assignedValueType
        let strs := IsPrimitive assigneType "string" && IsPrimitive assignedValueType "string"
        if !numeric && !strs then
          pure [typeErr ("invalid operands for " ++ operator.value)]
        else pure []
      | .DASH_EQUALS =>
        let numeric := IsNumeric assigneType && IsNumeric assignedValueType
        if !numeric then
          pure [typeErr ("invalid operands for " ++ operator.value)]
        else pure []
      | _ => pure []
    .ok (assigneType, tbl, errs1 ++ errs2 ++ errs3)
  termination_by structural fuel => fuel

/-- `CheckVarDeclAssignExpr`: defines the name in the current scope
with the value's (possibly nil) type and yields that type. -/
def CheckVarDeclAssignExpr : Nat → SymbolTable → String → Expr → CheckResult
  | 0, _, _, _ => .error outOfFuel
  | fuel+1, tbl, name, value => do
    let (assignedValueType, tbl, errs) ← CheckExpr fuel tbl value
    .ok (assignedValueType, defineVar tbl name assignedValueType, errs)
  termination_by structural fuel => fuel

end

/-- `CheckReturnStmt`: keyed on `tc.currentFuncReturnType` (nil when no
function is being checked) and `IsUnit`. -/
def CheckReturnStmt (fuel : Nat) (tbl : SymbolTable) (currentFuncReturnType : Option Ty)
    (expr : Option Expr) : Except String (SymbolTable × List String) :=
  match currentFuncReturnType with
  | none => .ok (tbl, [typeErr "return statement outside of function"])
  | some curRet =>
    let isUnitReturn := IsUnit (some curRet)
    match expr with
    | none =>
      if !isUnitReturn then
        .ok (tbl, [typeErr ("expected function to return " ++ tyString curRet)])
      else .ok (tbl, [])
    | some e => do
      let (exprType, tbl, errs) ← CheckExpr fuel tbl e
      match exprType with
      | none => .ok (tbl, errs)
      | some t =>
        if isUnitReturn then
          .ok (tbl, errs ++ [typeErr "cannot return a value from a function with no declared return type"])
        else if !(tyEquals t curRet) then
          .ok (tbl, errs ++ [typeErr ("return type mismatch: expected " ++ tyString curRet ++ ", found " ++ tyString t)])
        else .ok (tbl, errs)

end Checker

namespace Analyzer

/-! ### Flow analyzer (`typechecker/semantic_analyzer.go`)

The analyzer only reads its symbol table and appends errors; every
embedded function returns the errors it appends.  `stmtReturns` and
the `slices.ContainsFunc` inside `blockReturns` are structurally
recursive (no fuel), so they evaluate by `rfl`. -/

/-- `sa.Err`: errors are wrapped in a colored `Semantic Error:` prefix. -/
def semanticErr (msg : String) : String :=
  "\x1b[31mSemantic Error: " ++ msg ++ "\x1b[0m"

mutual
/-- `stmtReturns`: a statement returns iff it is a `return`, a block
that returns, or an `if` with an `else` where both branches return.
The `BlockStmt` case inlines the body of `blockReturns` (the empty
check plus `slices.ContainsFunc`) to keep the recursion structural. -/
def stmtReturns : Stmt → Bool
  | .BlockStmt statements =>
    if statements.length = 0 then false else anyStmtReturns statements
  | .ReturnStmt _ => true
  | .IfStmt _ thenStmt elseStmt =>
    match elseStmt with
    | none => false
    | some els => stmtReturns thenStmt && stmtReturns els
  | _ => false
/-- `slices.ContainsFunc(block.Statements, stmtReturns)`. -/
def anyStmtReturns : List Stmt → Bool
  | [] => false
  | s :: rest => stmtReturns s || anyStmtReturns rest
end

/-- `blockReturns`: an empty block does not return; otherwise the block
returns iff some statement in it returns. -/
def blockReturns (statements : List Stmt) : Bool :=
  if statements.length = 0 then false else anyStmtReturns statements

/-- The first loop of `checkUnreachableCode`: scan all statements but
the last; the first returning one yields a single error (then `break`).
The reported index is 1-based. -/
def unreachableScan : List Stmt → Nat → List String
  | [], _ => []
  | [_], _ => []
  | s :: rest, i =>
    if stmtReturns s then
      [semanticErr ("unreachable code after statement " ++ toString (i + 1))]
    else unreachableScan rest (i + 1)

mutual

/-- `analyzeStmt`.  The Go `switch` has no case for `UseDeclStmt`,
which therefore hits the default `unknown statement type` error. -/
def analyzeStmt : Nat → SymbolTable → Stmt → List String
  | 0, _, _ => [outOfFuel]
  | fuel+1, st, stmt =>
    match stmt with
    | .BlockStmt statements => analyzeBlockStmt fuel st statements
    | .VarDeclStmt _ initVal =>
      match initVal with
      | some e => analyzeExpr fuel st e
      | none => []
    | .StructDeclStmt _ _ => []
    | .FuncDeclStmt name _ _ body => analyzeFuncDeclStmt fuel st name body
    | .IfStmt cond thenStmt elseStmt =>
      analyzeExpr fuel st cond ++ analyzeStmt fuel st thenStmt ++
        (match elseStmt with
         | some els => analyzeStmt fuel st els
         | none => [])
    | .ForStmt init cond iter body =>
      analyzeStmt fuel st init ++ analyzeExpr fuel st cond ++
        analyzeStmt fuel st iter ++ analyzeBlockStmt fuel st body
    | .ReturnStmt expr =>
      match expr with
      | some e => analyzeExpr fuel st e
      | none => []
    | .ExpressionStmt expr _ => analyzeExpr fuel st expr
    | .UseDeclStmt _ => [semanticErr "unknown statement type for semantic analysis"]
  termination_by structural fuel => fuel

/-- `analyzeBlockStmt`: analyzes each statement, then checks for
unreachable code. -/
def analyzeBlockStmt : Nat → SymbolTable → List Stmt → List String
  | 0, _, _ => [outOfFuel]
  | fuel+1, st, statements =>
    analyzeStmtList fuel st statements ++ checkUnreachableCode fuel statements
  termination_by structural fuel => fuel

/-- The statement loop of `analyzeBlockStmt`. -/
def analyzeStmtList : Nat → SymbolTable → List Stmt → List String
  | 0, _, _ => [outOfFuel]
  | fuel+1, st, stmts =>
    match stmts with
    | [] => []
    | s :: rest => analyzeStmt fuel st s ++ analyzeStmtList fuel st rest
  termination_by structural fuel => fuel

/-- `analyzeFuncDeclStmt`: looks the function up in the symbol table,
analyzes the body, and — when the declared return type is neither nil
nor unit — reports the function by name if its body does not return on
all paths. -/
def analyzeFuncDeclStmt : Nat → SymbolTable → String → List Stmt → List String
  | 0, _, _, _ => [outOfFuel]
  | fuel+1, st, name, body =>
    match lookupFunc st name with
    | none => [semanticErr ("function " ++ name ++ " not found in symbol table during semantic analysis")]
    | some funcType =>
      analyzeBlockStmt fuel st body ++
        (match funcType.returnType with
         | some rt =>
           if IsUnit (some rt) then []
           else if blockReturns body then []
           else [semanticErr ("function '" ++ name ++ "' with return type " ++ tyString rt ++ " does not return a value in all code paths")]
         | none => [])
  termination_by structural fuel => fuel

/-- `analyzeExpr`.  The Go `switch` has no case for `UnitExpr`,
`BlockExpr` or `IfExpr`, which therefore hit the default
`unknown expression type` error. -/
def analyzeExpr : Nat → SymbolTable → Expr → List String
  | 0, _, _ => [outOfFuel]
  | fuel+1, st, expr =>
    match expr with
    | .NumberLiteralExpr _ | .StringLiteralExpr _ | .BoolLiteralExpr _ => []
    | .IdentExpr _ => []
    | .BinaryExpr lhs _ rhs => analyzeExpr fuel st lhs ++ analyzeExpr fuel st rhs
    | .UnaryExpr _ rhs => analyzeExpr fuel st rhs
    | .GroupExpr e => analyzeExpr fuel st e
    | .FuncCallExpr func args => analyzeExpr fuel st func ++ analyzeExprList fuel st args
    | .StructLiteralExpr structE members =>
      analyzeExpr fuel st structE ++ analyzeMemberValues fuel st members
    | .StructMemberExpr structE _ => analyzeExpr fuel st structE
    | .ArrayIndexExpr array index => analyzeExpr fuel st array ++ analyzeExpr fuel st index
    | .AssignExpr assigne _ value => analyzeExpr fuel st assigne ++ analyzeExpr fuel st value
    | .VarDeclAssignExpr _ value => analyzeExpr fuel st value
    | .UnitExpr | .BlockExpr _ _ | .IfExpr _ _ _ =>
      [semanticErr "unknown expression type for semantic analysis"]
  termination_by structural fuel => fuel

/-- The argument loop of `analyzeExpr` on calls. -/
def analyzeExprList : Nat → SymbolTable → List Expr → List String
  | 0, _, _ => [outOfFuel]
  | fuel+1, st, exprs =>
    match exprs with
    | [] => []
    | e :: rest => analyzeExpr fuel st e ++ analyzeExprList fuel st rest
  termination_by structural fuel => fuel

/-- The member-value loop of `analyzeExpr` on struct literals. -/
def analyzeMemberValues : Nat → SymbolTable → List (String × Expr) → List String
  | 0, _, _ => [outOfFuel]
  | fuel+1, st, members =>
    match members with
    | [] => []
    | m :: rest => analyzeExpr fuel st m.2 ++ analyzeMemberValues fuel st rest
  termination_by structural fuel => fuel

/-- `checkUnreachableCode`: the top-level scan, then the recursive
descent into nested blocks (generic blocks, both `if` branches when
they are blocks, and `for` bodies). -/
def checkUnreachableCode : Nat → List Stmt → List String
  | 0, _ => [outOfFuel]
  | fuel+1, statements =>
    unreachableScan statements 0 ++ checkUnreachableNested fuel statements
  termination_by structural fuel => fuel

/-- The second loop of `checkUnreachableCode`. -/
def checkUnreachableNested : Nat → List Stmt → List String
  | 0, _ => [outOfFuel]
  | fuel+1, stmts =>
    match stmts with
    | [] => []
    | s :: rest =>
      (match s with
       | .BlockStmt ss => checkUnreachableCode fuel ss
       | .IfStmt _ thenStmt elseStmt =>
         (match thenStmt with
          | .BlockStmt ss => checkUnreachableCode fuel ss
          | _ => []) ++
         (match elseStmt with
          | some (.BlockStmt ss) => checkUnreachableCode fuel ss
          | _ => [])
       | .ForStmt _ _ _ body => checkUnreachableCode fuel body
       | _ => []) ++ checkUnreachableNested fuel rest
  termination_by structural fuel => fuel

end

/-- `AnalyzeSemantics`: analyzes the whole program block. -/
def AnalyzeSemantics (fuel : Nat) (program : List Stmt) (symbolTable : SymbolTable) : List String :=
  analyzeBlockStmt fuel symbolTable program

end Analyzer

/-! ## Claim theorems -/

/-- C3: the claim states that `Tokenize` never returns two consecutive
end-of-line tokens — runs of line breaks are collapsed to at most one
EOL.  Evaluating the embedded lexer on the source consisting of two
consecutive line breaks yields exactly two consecutive EOL tokens: the
EOL pattern is tried first at every position and matches a single line
break, and only `WHITESPACE` matches are dropped.  The code therefore
violates the claim (and the parser's own comment, which asserts that
"redundant consecutive EOLs have already been omitted by the lexer"). -/
theorem claim_C3_two_line_breaks_give_two_eol_tokens :
    Lexer.Tokenize "\n\n" = .ok [⟨.EOL, "\n", 0⟩, ⟨.EOL, "\n", 0⟩] := by
  decide

/-- C9 (counterexample): the claim states that for every source string
in which a line break is immediately preceded by a space or tab,
`Tokenize` emits no EOL token for that line break.  In the source
`"// \n"` the line break is immediately preceded by a space, yet that
space is consumed by the `COMMENT` pattern (Go's `.` stops before
`\n`), so the scanner reaches the line break at a fresh position and
emits an EOL token for it. -/
theorem claim_C9_space_inside_comment_still_gives_eol :
    Lexer.Tokenize "// \n" = .ok [⟨.COMMENT, "// ", 0⟩, ⟨.EOL, "\n", 0⟩] := by
  decide

/-- The token list of `{ let a: i32 = 5; a + 10; }` (a test vector;
`claim_C1_explicit_semicolon_does_not_suppress_block_value` proves it
equal to the lexer's output on that source). -/
def c1Tokens : List Token :=
  [⟨.OPEN_CURLY, "\x7b", 0⟩, ⟨.LET, "let", 0⟩, ⟨.IDENTIFIER, "a", 0⟩,
   ⟨.COLON, ":", 0⟩, ⟨.IDENTIFIER, "i32", 0⟩, ⟨.EQUALS, "=", 0⟩,
   ⟨.NUMBER, "5", 0⟩, ⟨.SEMICOLON, ";", 0⟩, ⟨.IDENTIFIER, "a", 0⟩,
   ⟨.PLUS, "+", 0⟩, ⟨.NUMBER, "10", 0⟩, ⟨.SEMICOLON, ";", 0⟩,
   ⟨.CLOSE_CURLY, "\x7d", 0⟩]

/-- C1: the claim states that a block whose last statement is an
expression-statement followed by an explicit semicolon has the unit
expression as its value.  Running the embedded lexer and parser on the
spec's own example `{ let a: i32 = 5; a + 10; }` shows that
`parseBlockExpr` promotes the final expression-statement's expression
to the block's result even though its `ExplicitSemicolon` flag is true:
the block-expression has ONE statement and result `a + 10`, not two
statements and a unit result.  The code violates the claim (and the
intent documented in `peek`'s comment: "If the user's intention is
specifically to return nothing from a block expression, they must
insert an explicit semicolon"). -/
theorem claim_C1_explicit_semicolon_does_not_suppress_block_value :
    (Lexer.Tokenize "{ let a: i32 = 5; a + 10; }" >>= Parser.Parse) =
      .ok [Stmt.ExpressionStmt
        (Expr.BlockExpr
          [Stmt.VarDeclStmt ⟨"a", .NamedTypeExpr "i32"⟩ (some (.NumberLiteralExpr "5"))]
          (.BinaryExpr (.IdentExpr "a") ⟨.PLUS, "+", 0⟩ (.NumberLiteralExpr "10")))
        false] := by
  have h1 : Lexer.Tokenize "{ let a: i32 = 5; a + 10; }" = .ok c1Tokens := by decide
  rw [h1]
  show Parser.Parse c1Tokens = _
  with_unfolding_all rfl

/-- The token list of `struct Name { m1: T1, m2: T2 }` — no trailing
comma after the last member. -/
def c8TokensNoComma : List Token :=
  [⟨.STRUCT, "struct", 0⟩, ⟨.IDENTIFIER, "Name", 0⟩, ⟨.OPEN_CURLY, "\x7b", 0⟩,
   ⟨.IDENTIFIER, "m1", 0⟩, ⟨.COLON, ":", 0⟩, ⟨.IDENTIFIER, "T1", 0⟩,
   ⟨.COMMA, ",", 0⟩, ⟨.IDENTIFIER, "m2", 0⟩, ⟨.COLON, ":", 0⟩,
   ⟨.IDENTIFIER, "T2", 0⟩, ⟨.CLOSE_CURLY, "\x7d", 0⟩]

/-- The token list of `struct Name { m1: T1, m2: T2, }` — with the
trailing comma. -/
def c8TokensComma : List Token :=
  [⟨.STRUCT, "struct", 0⟩, ⟨.IDENTIFIER, "Name", 0⟩, ⟨.OPEN_CURLY, "\x7b", 0⟩,
   ⟨.IDENTIFIER, "m1", 0⟩, ⟨.COLON, ":", 0⟩, ⟨.IDENTIFIER, "T1", 0⟩,
   ⟨.COMMA, ",", 0⟩, ⟨.IDENTIFIER, "m2", 0⟩, ⟨.COLON, ":", 0⟩,
   ⟨.IDENTIFIER, "T2", 0⟩, ⟨.COMMA, ",", 0⟩, ⟨.CLOSE_CURLY, "\x7d", 0⟩]

/-- C8: the claim states that the trailing comma after the last struct
member is required, so that `struct Name { m1: T1, m2: T2 }` fails to
parse while `struct Name { m1: T1, m2: T2, }` succeeds.  In
`parseStructDeclStmt` (part_007 lines 569-593) the member loop runs
until the next token is a closing curly and consumes the comma only
when one is present (lines 584-586: `if p.peek().Type == lexer.COMMA {
p.consume(lexer.COMMA) }`), so after the last member `m2: T2` the
loop simply exits at the closing curly and the version without the
trailing comma parses successfully — into the very same declaration as
the version with it.  The code therefore violates the claim (and the
comment at `parseUseDeclStmt`, line 792: "Like struct declarations and
struct literals, trailing comma is mandatory"): the trailing comma is
optional, not required.  Both conjuncts run the full
pipeline `Tokenize` then `Parse` on the source text. -/
theorem claim_C8_struct_decl_trailing_comma_is_optional :
    (Lexer.Tokenize "struct Name { m1: T1, m2: T2 }" >>= Parser.Parse) =
      .ok [Stmt.StructDeclStmt "Name"
        [⟨"m1", .NamedTypeExpr "T1"⟩, ⟨"m2", .NamedTypeExpr "T2"⟩]] ∧
    (Lexer.Tokenize "struct Name { m1: T1, m2: T2, }" >>= Parser.Parse) =
      .ok [Stmt.StructDeclStmt "Name"
        [⟨"m1", .NamedTypeExpr "T1"⟩, ⟨"m2", .NamedTypeExpr "T2"⟩]] := by
  constructor
  · have h1 : Lexer.Tokenize "struct Name { m1: T1, m2: T2 }" = .ok c8TokensNoComma := by
      decide
    rw [h1]
    show Parser.Parse c8TokensNoComma = _
    with_unfolding_all rfl
  · have h2 : Lexer.Tokenize "struct Name { m1: T1, m2: T2, }" = .ok c8TokensComma := by
      decide
    rw [h2]
    show Parser.Parse c8TokensComma = _
    with_unfolding_all rfl

/-- Out-of-range current position means the zero token (EOF). -/
theorem currentToken_type_eol_pos_lt {p : Parser.ParserState}
    (hcur : p.currentToken.type = .EOL) : p.pos < p.tokens.length := by
  by_contra hge
  push_neg at hge
  have hd : p.currentToken = defaultToken :=
    List.getD_eq_default _ _ hge
  rw [hd] at hcur
  exact absurd hcur (by decide)

/-- Token-count bookkeeping for the in-place EOL deletion. -/
theorem removeCurrentToken_length {p : Parser.ParserState}
    (hlt : p.pos < p.tokens.length) :
    (Parser.removeCurrentToken p).tokens.length + 1 = p.tokens.length := by
  simp only [Parser.removeCurrentToken, List.length_append, List.length_take, List.length_drop]
  omega

/-- C2: characterization of `peek` on a state whose current token is an
end-of-line.  (a) If the next token is a closing curly brace the EOL is
always deleted (peek continues on the shrunken buffer), never rewritten.
Otherwise: (b) if the bracket stack is empty, the previous token's kind
is in `beforeSemicolon`, the next token's kind is in `afterSemicolon`,
and the next token is not EOF (`eolPromotionConditions`), the EOL is
rewritten in place to an explicit semicolon and returned; (c) if any of
the conditions fails, the EOL is deleted and peek recurses. -/
theorem claim_C2_peek_eol_characterization (p : Parser.ParserState)
    (hcur : p.currentToken.type = .EOL) :
    (p.nextToken.type = .CLOSE_CURLY →
      Parser.peek p = Parser.peek (Parser.removeCurrentToken p)) ∧
    (p.nextToken.type ≠ .CLOSE_CURLY →
      (Parser.eolPromotionConditions p = true →
        Parser.peek p =
          (⟨.SEMICOLON, ";", p.currentToken.srcPos⟩, Parser.rewriteCurrentToSemicolon p)) ∧
      (Parser.eolPromotionConditions p = false →
        Parser.peek p = Parser.peek (Parser.removeCurrentToken p))) := by
  have hlt := currentToken_type_eol_pos_lt hcur
  have hlen := removeCurrentToken_length hlt
  have hsemi : (Parser.rewriteCurrentToSemicolon p).currentToken =
      ⟨.SEMICOLON, ";", p.currentToken.srcPos⟩ := by
    show (Parser.rewriteCurrentToSemicolon p).tokens.getD p.pos defaultToken = _
    simp only [Parser.rewriteCurrentToSemicolon]
    rw [List.getD_eq_getElem?_getD, List.getElem?_set_eq_of_lt _ hlt]
    rfl
  refine ⟨fun hnext => ?_, fun hnext => ⟨fun hcond => ?_, fun hcond => ?_⟩⟩
  · rw [Parser.peek, Parser.peek, ← hlen, Parser.peekAux]
    simp [hcur, hnext]
  · rw [Parser.peek, Parser.peekAux]
    simp [hcur, hnext, hcond, hsemi]
  · rw [Parser.peek, Parser.peek, ← hlen, Parser.peekAux]
    simp [hcur, hnext, hcond]

/-- A state whose current EOL sits right before a closing curly. -/
def c2StateA : Parser.ParserState :=
  ⟨[⟨.EOL, "\n", 0⟩, ⟨.CLOSE_CURLY, "\x7d", 0⟩], 0, [], false⟩

/-- A state whose current EOL satisfies the promotion conditions. -/
def c2StateB : Parser.ParserState :=
  ⟨[⟨.NUMBER, "5", 0⟩, ⟨.EOL, "\n", 0⟩, ⟨.NUMBER, "6", 0⟩], 1, [], false⟩

/-- A state whose current EOL fails the promotion conditions (the
previous token is the zero token, EOF). -/
def c2StateC : Parser.ParserState :=
  ⟨[⟨.EOL, "\n", 0⟩, ⟨.NUMBER, "6", 0⟩], 0, [], false⟩

/-- Witness for C2: the characterization applied to three concrete
parser states, one per branch. -/
theorem claim_C2_peek_eol_characterization_witness :
    (Parser.peek c2StateA = Parser.peek (Parser.removeCurrentToken c2StateA)) ∧
    (Parser.peek c2StateB = (⟨.SEMICOLON, ";", 0⟩, Parser.rewriteCurrentToSemicolon c2StateB)) ∧
    (Parser.peek c2StateC = Parser.peek (Parser.removeCurrentToken c2StateC)) :=
  ⟨(claim_C2_peek_eol_characterization c2StateA (by decide)).1 (by decide),
   by simpa using
     ((claim_C2_peek_eol_characterization c2StateB (by decide)).2 (by decide)).1 (by decide),
   ((claim_C2_peek_eol_characterization c2StateC (by decide)).2 (by decide)).2 (by decide)⟩

/-- Reduction of `Except` binds on a known `ok` value. -/
theorem exceptOk_bind {ε α β : Type} (a : α) (f : α → Except ε β) :
    (Except.ok a >>= f) = f a := rfl

/-- Reduction of `Except` binds on a known `error` value. -/
theorem exceptError_bind {ε α β : Type} (e : ε) (f : α → Except ε β) :
    (Except.error e >>= f) = (.error e : Except ε β) := rfl

/-- `peek` leaves a state alone when the current token is not an EOL. -/
theorem peek_of_not_eol {p : Parser.ParserState}
    (h : p.currentToken.type ≠ .EOL) : Parser.peek p = (p.currentToken, p) := by
  rw [Parser.peek, Parser.peekAux]
  simp [h]

/-- C10: `!` cannot start an expression.  (i) `headPrecedence` assigns
no head binding power to `NOT` (the Go code panics); (ii) whenever the
parser is about to parse an expression and the current token is `NOT`,
`parseExpr` fails fatally with `parseHeadExpr`'s default error; yet
(iii) the type checker has a typing rule for unary `!`: on a `bool`
operand that checks cleanly, `CheckUnaryExpr` yields `bool` with no
errors. -/
theorem claim_C10_not_has_no_head_form_but_is_typed :
    (Parser.headPrecedence .NOT =
      .error "Cannot determine binding power as a head token") ∧
    (∀ (fuel min_bp : Nat) (p : Parser.ParserState),
      p.currentToken.type = .NOT →
      Parser.parseExpr (fuel + 2) min_bp p = .error (Parser.headExprFailMsg p.currentToken)) ∧
    (∀ (fuel : Nat) (tbl : SymbolTable) (operator : Token) (rhs : Expr) (t : Ty),
      operator.type = .NOT →
      Checker.CheckExpr fuel tbl rhs = .ok (some t, tbl, []) →
      IsPrimitive (some t) "bool" = true →
      Checker.CheckUnaryExpr (fuel + 1) tbl operator rhs =
        .ok (some (.prim "bool"), tbl, [])) := by
  refine ⟨rfl, fun fuel min_bp p hnot => ?_, fun fuel tbl operator rhs t hop hrhs hbool => ?_⟩
  · have hne : p.currentToken.type ≠ .EOL := by rw [hnot]; decide
    have hpeek := peek_of_not_eol hne
    have hcons : Parser.consume [] p = .ok (p.currentToken, { p with pos := p.pos + 1 }) := by
      rw [Parser.consume]
      simp [hpeek, hnot, pure, Except.pure, exceptOk_bind]
    rw [Parser.parseExpr, hcons, exceptOk_bind]
    simp [Parser.parseHeadExpr, hnot, exceptError_bind]
  · rw [Checker.CheckUnaryExpr, hrhs, exceptOk_bind]
    simp [hop, hbool]

/-- Parser state whose current token is a `!` in head position. -/
def c10State : Parser.ParserState :=
  ⟨[⟨.NOT, "!", 0⟩, ⟨.IDENTIFIER, "x", 0⟩], 0, [], false⟩

/-- Witness for C10: the parser fails on `! x` while the checker types
`! true` as `bool` in the empty symbol table. -/
theorem claim_C10_not_has_no_head_form_but_is_typed_witness :
    Parser.parseExpr 2 0 c10State = .error (Parser.headExprFailMsg c10State.currentToken) ∧
    Checker.CheckUnaryExpr 2 (newSymbolTable none) ⟨.NOT, "!", 0⟩ (.BoolLiteralExpr true) =
      .ok (some (.prim "bool"), newSymbolTable none, []) :=
  ⟨claim_C10_not_has_no_head_form_but_is_typed.2.1 0 0 c10State (by decide),
   claim_C10_not_has_no_head_form_but_is_typed.2.2 1 (newSymbolTable none)
     ⟨.NOT, "!", 0⟩ (.BoolLiteralExpr true) (.prim "bool") rfl
     (by with_unfolding_all rfl) (by decide)⟩

/-- C6: `CheckReturnStmt`.  (a) A return outside any function (nil
`currentFuncReturnType`) is an error.  (b) A bare `return` in a
unit-returning function is accepted with no error, and (c) is an error
in a non-unit function.  With an expression whose check is clean:
(d) in a unit-returning function it is an error; (e) if its type
differs from the declared return type it is a mismatch error; (f) if
the types are equal it is accepted with no error. -/
theorem claim_C6_check_return_stmt :
    (∀ (fuel : Nat) (tbl : SymbolTable) (expr : Option Expr),
      Checker.CheckReturnStmt fuel tbl none expr =
        .ok (tbl, [Checker.typeErr "return statement outside of function"])) ∧
    (∀ (fuel : Nat) (tbl : SymbolTable),
      Checker.CheckReturnStmt fuel tbl (some .unit) none = .ok (tbl, [])) ∧
    (∀ (fuel : Nat) (tbl : SymbolTable) (rt : Ty),
      IsUnit (some rt) = false →
      Checker.CheckReturnStmt fuel tbl (some rt) none =
        .ok (tbl, [Checker.typeErr ("expected function to return " ++ tyString rt)])) ∧
    (∀ (fuel : Nat) (tbl : SymbolTable) (e : Expr) (t : Ty),
      Checker.CheckExpr fuel tbl e = .ok (some t, tbl, []) →
      Checker.CheckReturnStmt fuel tbl (some .unit) (some e) =
        .ok (tbl, [Checker.typeErr "cannot return a value from a function with no declared return type"])) ∧
    (∀ (fuel : Nat) (tbl : SymbolTable) (rt : Ty) (e : Expr) (t : Ty),
      IsUnit (some rt) = false →
      Checker.CheckExpr fuel tbl e = .ok (some t, tbl, []) →
      tyEquals t rt = false →
      Checker.CheckReturnStmt fuel tbl (some rt) (some e) =
        .ok (tbl, [Checker.typeErr ("return type mismatch: expected " ++ tyString rt ++ ", found " ++ tyString t)])) ∧
    (∀ (fuel : Nat) (tbl : SymbolTable) (rt : Ty) (e : Expr) (t : Ty),
      IsUnit (some rt) = false →
      Checker.CheckExpr fuel tbl e = .ok (some t, tbl, []) →
      tyEquals t rt = true →
      Checker.CheckReturnStmt fuel tbl (some rt) (some e) = .ok (tbl, [])) := by
  refine ⟨fun fuel tbl expr => rfl,
          fun fuel tbl => rfl,
          fun fuel tbl rt hu => ?_,
          fun fuel tbl e t hc => ?_,
          fun fuel tbl rt e t hu hc hne => ?_,
          fun fuel tbl rt e t hu hc heq => ?_⟩
  · rw [Checker.CheckReturnStmt]
    simp [hu]
  · rw [Checker.CheckReturnStmt, hc, exceptOk_bind]
    simp [IsUnit]
  · rw [Checker.CheckReturnStmt, hc, exceptOk_bind]
    simp [hu, hne]
  · rw [Checker.CheckReturnStmt, hc, exceptOk_bind]
    simp [hu, heq]

/-- Witness for C6: each branch at a concrete input; the expression
`1` checks cleanly to `i32` in the empty symbol table. -/
theorem claim_C6_check_return_stmt_witness :
    Checker.CheckReturnStmt 1 (newSymbolTable none) none none =
      .ok (newSymbolTable none, [Checker.typeErr "return statement outside of function"]) ∧
    Checker.CheckReturnStmt 1 (newSymbolTable none) (some .unit) none =
      .ok (newSymbolTable none, []) ∧
    Checker.CheckReturnStmt 1 (newSymbolTable none) (some (.prim "i32")) none =
      .ok (newSymbolTable none, [Checker.typeErr ("expected function to return " ++ tyString (.prim "i32"))]) ∧
    Checker.CheckReturnStmt 1 (newSymbolTable none) (some .unit) (some (.NumberLiteralExpr "1")) =
      .ok (newSymbolTable none, [Checker.typeErr "cannot return a value from a function with no declared return type"]) ∧
    Checker.CheckReturnStmt 1 (newSymbolTable none) (some (.prim "bool")) (some (.NumberLiteralExpr "1")) =
      .ok (newSymbolTable none, [Checker.typeErr ("return type mismatch: expected " ++ tyString (.prim "bool") ++ ", found " ++ tyString (.prim "i32"))]) ∧
    Checker.CheckReturnStmt 1 (newSymbolTable none) (some (.prim "i32")) (some (.NumberLiteralExpr "1")) =
      .ok (newSymbolTable none, []) :=
  ⟨claim_C6_check_return_stmt.1 1 (newSymbolTable none) none,
   claim_C6_check_return_stmt.2.1 1 (newSymbolTable none),
   claim_C6_check_return_stmt.2.2.1 1 (newSymbolTable none) (.prim "i32") (by decide),
   claim_C6_check_return_stmt.2.2.2.1 1 (newSymbolTable none) (.NumberLiteralExpr "1")
     (.prim "i32") (by with_unfolding_all rfl),
   claim_C6_check_return_stmt.2.2.2.2.1 1 (newSymbolTable none) (.prim "bool")
     (.NumberLiteralExpr "1") (.prim "i32") (by decide) (by with_unfolding_all rfl) (by decide),
   claim_C6_check_return_stmt.2.2.2.2.2 1 (newSymbolTable none) (.prim "i32")
     (.NumberLiteralExpr "1") (.prim "i32") (by decide) (by with_unfolding_all rfl) (by decide)⟩

/-- The claim's own recursive definition of "returns", written as an
inductive predicate (for comparison with the code's `stmtReturns`):
a statement returns iff it is a `return` statement, a block containing
a returning statement, or an `if` with an `else` branch in which both
branches return. -/
inductive ReturnsSpec : Stmt → Prop where
  | ret (expr : Option Expr) : ReturnsSpec (.ReturnStmt expr)
  | blk {statements : List Stmt} {s : Stmt} (hmem : s ∈ statements)
      (h : ReturnsSpec s) : ReturnsSpec (.BlockStmt statements)
  | ite {cond : Expr} {thenStmt elseStmt : Stmt} (ht : ReturnsSpec thenStmt)
      (he : ReturnsSpec elseStmt) : ReturnsSpec (.IfStmt cond thenStmt (some elseStmt))

/-- `slices.ContainsFunc` agrees with existence of a returning member. -/
theorem anyStmtReturns_iff (l : List Stmt) :
    Analyzer.anyStmtReturns l = true ↔ ∃ s ∈ l, Analyzer.stmtReturns s = true := by
  induction l with
  | nil => simp [Analyzer.anyStmtReturns]
  | cons s rest ih => simp [Analyzer.anyStmtReturns, Bool.or_eq_true, ih]

/-- `stmtReturns` agrees with the claim's recursive definition
(size-bounded induction). -/
theorem stmtReturns_iff_aux :
    ∀ n, ∀ s : Stmt, sizeOf s ≤ n → (Analyzer.stmtReturns s = true ↔ ReturnsSpec s) := by
  intro n
  induction n with
  | zero =>
    intro s hs
    cases s <;> simp_arith at hs
  | succ n ih =>
    intro s hs
    match s with
    | .ReturnStmt e =>
      rw [Analyzer.stmtReturns]
      exact iff_of_true rfl (.ret e)
    | .BlockStmt stmts =>
      rw [Analyzer.stmtReturns]
      constructor
      · intro h
        by_cases hlen : stmts.length = 0
        · rw [if_pos hlen] at h
          simp at h
        · rw [if_neg hlen] at h
          obtain ⟨s1, hmem, hret⟩ := (anyStmtReturns_iff stmts).mp h
          have hsz : sizeOf s1 ≤ n := by
            have h1 := List.sizeOf_lt_of_mem hmem
            have h2 : sizeOf (Stmt.BlockStmt stmts) = 1 + sizeOf stmts := by simp
            omega
          exact .blk hmem ((ih s1 hsz).mp hret)
      · intro h
        cases h with
        | blk hmem h1 =>
          rename_i s1
          have hsz : sizeOf s1 ≤ n := by
            have h1 := List.sizeOf_lt_of_mem hmem
            have h2 : sizeOf (Stmt.BlockStmt stmts) = 1 + sizeOf stmts := by simp
            omega
          have hne : stmts.length ≠ 0 := by
            cases stmts with
            | nil => cases hmem
            | cons a rest => simp
          rw [if_neg hne]
          exact (anyStmtReturns_iff stmts).mpr ⟨s1, hmem, (ih s1 hsz).mpr h1⟩
    | .IfStmt c t el =>
      match el with
      | none => exact ⟨fun h => Bool.noConfusion h, fun h => nomatch h⟩
      | some e =>
        simp_arith at hs
        have hst : sizeOf t ≤ n := by omega
        have hse : sizeOf e ≤ n := by omega
        rw [Analyzer.stmtReturns]
        constructor
        · intro h
          rw [Bool.and_eq_true] at h
          exact .ite ((ih t hst).mp h.1) ((ih e hse).mp h.2)
        · intro h
          cases h with
          | ite ht he =>
            rw [Bool.and_eq_true]
            exact ⟨(ih t hst).mpr ht, (ih e hse).mpr he⟩
    | .ExpressionStmt e b => exact ⟨fun h => Bool.noConfusion h, fun h => nomatch h⟩
    | .VarDeclStmt v iv => exact ⟨fun h => Bool.noConfusion h, fun h => nomatch h⟩
    | .FuncDeclStmt a b c d => exact ⟨fun h => Bool.noConfusion h, fun h => nomatch h⟩
    | .StructDeclStmt a b => exact ⟨fun h => Bool.noConfusion h, fun h => nomatch h⟩
    | .ForStmt a b c d => exact ⟨fun h => Bool.noConfusion h, fun h => nomatch h⟩
    | .UseDeclStmt a => exact ⟨fun h => Bool.noConfusion h, fun h => nomatch h⟩

/-- C4: (i) for every function declaration whose symbol-table entry has
a non-nil, non-unit return type, the flow analyzer's result is the body
analysis followed by exactly one error naming the function — present
iff the body does not return on all paths; (ii) the code's
`stmtReturns` coincides with the claim's recursive definition of
"returns". -/
theorem claim_C4_missing_return_reported_iff_body_does_not_return :
    (∀ (fuel : Nat) (st : SymbolTable) (name : String) (body : List Stmt)
        (ft : FuncTy) (rt : Ty),
      lookupFunc st name = some ft →
      ft.returnType = some rt →
      IsUnit (some rt) = false →
      Analyzer.analyzeFuncDeclStmt (fuel + 1) st name body =
        Analyzer.analyzeBlockStmt fuel st body ++
          (if Analyzer.blockReturns body then []
           else [Analyzer.semanticErr ("function '" ++ name ++ "' with return type " ++
             tyString rt ++ " does not return a value in all code paths")])) ∧
    (∀ s : Stmt, Analyzer.stmtReturns s = true ↔ ReturnsSpec s) := by
  constructor
  · intro fuel st name body ft rt hlook hrt hu
    rw [Analyzer.analyzeFuncDeclStmt, hlook]
    by_cases hb : Analyzer.blockReturns body <;> simp [hrt, hu, hb]
  · intro s
    exact stmtReturns_iff_aux (sizeOf s) s (Nat.le_refl _)

/-- A symbol table binding `f` to a function returning `i32`. -/
def c4Table : SymbolTable :=
  defineFunc (newSymbolTable none) "f" ⟨some (.prim "i32"), []⟩

/-- Witness for C4: the function `f` with an empty body (which does not
return), and a `return` statement satisfying the spec predicate. -/
theorem claim_C4_missing_return_reported_iff_body_does_not_return_witness :
    Analyzer.analyzeFuncDeclStmt 3 c4Table "f" [] =
      Analyzer.analyzeBlockStmt 2 c4Table [] ++
        [Analyzer.semanticErr ("function 'f' with return type " ++ tyString (.prim "i32") ++
          " does not return a value in all code paths")] ∧
    ReturnsSpec (.ReturnStmt none) := by
  constructor
  · have h := claim_C4_missing_return_reported_iff_body_does_not_return.1 2 c4Table "f" []
      ⟨some (.prim "i32"), []⟩ (.prim "i32") (by with_unfolding_all rfl) rfl (by decide)
    simpa [Analyzer.blockReturns] using h
  · exact (claim_C4_missing_return_reported_iff_body_does_not_return.2 (.ReturnStmt none)).mp rfl

/-! ### C7 — redeclaration and shadowing in the resolver -/

/-- Association-list lookup skips a first list on which the key misses. -/
theorem lookup_append_of_eq_none {α β : Type} [BEq α] (k : α) :
    ∀ (l1 l2 : List (α × β)), l1.lookup k = none →
      (l1 ++ l2).lookup k = l2.lookup k := by
  intro l1
  induction l1 with
  | nil => intro l2 _; rfl
  | cons p rest ih =>
    intro l2 h
    obtain ⟨a, b⟩ := p
    rw [List.cons_append]
    simp only [List.lookup] at h ⊢
    cases hka : (k == a)
    · simp only [hka] at h ⊢
      exact ih l2 h
    · rw [hka] at h
      exact Option.noConfusion h

/-- The member loop of `resolveStructDeclStmt` on a clean declaration:
distinct member names whose types all resolve without error are appended
to the accumulated member map in order, and no error is produced. -/
theorem resolveStructMembers_clean (st : SymbolTable) (structName : String)
    (tys : TypedIdent → Ty) :
    ∀ (members : List TypedIdent) (mems : List (String × Ty)),
      (∀ m ∈ members, Resolver.resolveType st m.type = (some (tys m), [])) →
      (members.map TypedIdent.name).Nodup →
      (∀ m ∈ members, mems.lookup m.name = none) →
      Resolver.resolveStructMembers st structName members mems =
        (mems ++ members.map (fun m => (m.name, tys m)), []) := by
  intro members
  induction members with
  | nil =>
    intro mems _ _ _
    simp [Resolver.resolveStructMembers]
  | cons m rest ih =>
    intro mems hres hnd hdisj
    have hmn : mems.lookup m.name = none := hdisj m (by simp)
    have hrest : ∀ x ∈ rest, Resolver.resolveType st x.type = (some (tys x), []) :=
      fun x hx => hres x (by simp [hx])
    rw [List.map_cons, List.nodup_cons] at hnd
    have hdisj2 : ∀ x ∈ rest, (mems ++ [(m.name, tys m)]).lookup x.name = none := by
      intro x hx
      rw [lookup_append_of_eq_none x.name mems _ (hdisj x (by simp [hx]))]
      have hne : x.name ≠ m.name := by
        intro he
        exact hnd.1 (he ▸ List.mem_map_of_mem TypedIdent.name hx)
      have hbeq : (x.name == m.name) = false := beq_eq_false_iff_ne.mpr hne
      simp [List.lookup, hbeq]
    simp only [Resolver.resolveStructMembers]
    rw [if_neg (show ¬ ((mems.lookup m.name).isSome = true) by simp [hmn])]
    rw [hres m (by simp)]
    dsimp only
    rw [ih (mems ++ [(m.name, tys m)]) hrest hnd.2 hdisj2]
    simp

/-- Counterexample to C7 as stated: declaring struct `S` inside a nested
block while `S` is bound only in the enclosing module scope IS reported
as a redeclaration (the claim says shadowing across scopes is never an
error), and declaring the variable `x` twice in the very same scope
produces NO error (the claim says same-scope redeclaration is always
reported). -/
theorem claim_C7_redeclaration_checks_counterexample :
    (Resolver.Resolve 10 [Stmt.StructDeclStmt "S" [],
        Stmt.BlockStmt [Stmt.StructDeclStmt "S" []]]).2 =
      [Resolver.resolveErr "redeclared struct S in the same scope"] ∧
    (Resolver.Resolve 10 [Stmt.VarDeclStmt ⟨"x", .NamedTypeExpr "i32"⟩ none,
        Stmt.VarDeclStmt ⟨"x", .NamedTypeExpr "i32"⟩ none]).2 = [] := by
  constructor
  · with_unfolding_all rfl
  · with_unfolding_all rfl

/-- C7 (amended): the resolver reports a redeclaration for struct and
function declarations exactly when the name is already bound as a struct
(resp. function) anywhere in the scope chain — so shadowing a struct or
a function of an enclosing scope is also reported — while an unbound
name is declared without error; variable declarations perform no
redeclaration check at all: a variable name already in scope is silently
redefined. -/
theorem claim_C7_redeclaration_checks :
    (∀ (st : SymbolTable) (name : String) (members : List TypedIdent) (s : StructTy),
      lookupStructType st name = some s →
      Resolver.resolveStructDeclStmt st name members =
        (st, [Resolver.resolveErr ("redeclared struct " ++ name ++ " in the same scope")])) ∧
    (∀ (fuel : Nat) (st : SymbolTable) (name : String) (params : List TypedIdent)
        (returnTypeExpr : Option TypeExpr) (body : List Stmt) (f : FuncTy),
      lookupFunc st name = some f →
      Resolver.resolveFuncDeclStmt (fuel+1) st name params returnTypeExpr body =
        (st, [Resolver.resolveErr ("redeclared function " ++ name ++ " in the same scope")])) ∧
    (∀ (st : SymbolTable) (name : String) (members : List TypedIdent) (tys : TypedIdent → Ty),
      lookupStructType st name = none →
      (members.map TypedIdent.name).Nodup →
      (∀ m ∈ members, Resolver.resolveType st m.type = (some (tys m), [])) →
      Resolver.resolveStructDeclStmt st name members =
        (defineStructType st name ⟨name, members.map (fun m => (m.name, tys m))⟩, [])) ∧
    (∀ (fuel : Nat) (st : SymbolTable) (v : TypedIdent) (t0 : Option Ty) (t : Ty),
      lookupVarType st v.name = some t0 →
      Resolver.resolveType st v.type = (some t, []) →
      Resolver.resolveVarDeclStmt (fuel+1) st v none =
        (defineVar st v.name (some t), [])) := by
  refine ⟨?_, ?_, ?_, ?_⟩
  · intro st name members s hl
    simp [Resolver.resolveStructDeclStmt, hl]
  · intro fuel st name params rte body f hl
    simp [Resolver.resolveFuncDeclStmt, hl]
  · intro st name members tys hln hnd hres
    simp only [Resolver.resolveStructDeclStmt, hln]
    rw [resolveStructMembers_clean st name tys members [] hres hnd (fun _ _ => rfl)]
    simp
  · intro fuel st v t0 t h0 ht
    simp [Resolver.resolveVarDeclStmt, ht]

/-- A scope whose parent binds struct `S`. -/
def c7TableA : SymbolTable :=
  newSymbolTable (some (defineStructType (newSymbolTable none) "S" ⟨"S", []⟩))

/-- A scope whose parent binds function `f`. -/
def c7TableB : SymbolTable :=
  newSymbolTable (some (defineFunc (newSymbolTable none) "f" ⟨some Ty.unit, []⟩))

/-- A scope that itself binds variable `x`. -/
def c7TableD : SymbolTable :=
  defineVar (newSymbolTable none) "x" (some (Ty.prim "i32"))

/-- Witness for C7: redeclaring struct `S` / function `f` bound in the
parent scope errors, declaring a fresh struct `T` with one `i32` member
succeeds, and redeclaring the in-scope variable `x` silently succeeds. -/
theorem claim_C7_redeclaration_checks_witness :
    Resolver.resolveStructDeclStmt c7TableA "S" [] =
      (c7TableA, [Resolver.resolveErr ("redeclared struct " ++ "S" ++ " in the same scope")]) ∧
    Resolver.resolveFuncDeclStmt 1 c7TableB "f" [] none [] =
      (c7TableB, [Resolver.resolveErr ("redeclared function " ++ "f" ++ " in the same scope")]) ∧
    Resolver.resolveStructDeclStmt (newSymbolTable none) "T" [⟨"m", .NamedTypeExpr "i32"⟩] =
      (defineStructType (newSymbolTable none) "T" ⟨"T", [("m", Ty.prim "i32")]⟩, []) ∧
    Resolver.resolveVarDeclStmt 1 c7TableD ⟨"x", .NamedTypeExpr "i32"⟩ none =
      (defineVar c7TableD "x" (some (Ty.prim "i32")), []) := by
  refine ⟨?_, ?_, ?_, ?_⟩
  · exact claim_C7_redeclaration_checks.1 c7TableA "S" [] ⟨"S", []⟩ (by with_unfolding_all rfl)
  · exact claim_C7_redeclaration_checks.2.1 0 c7TableB "f" [] none [] ⟨some Ty.unit, []⟩
      (by with_unfolding_all rfl)
  · exact claim_C7_redeclaration_checks.2.2.1 (newSymbolTable none) "T"
      [⟨"m", .NamedTypeExpr "i32"⟩] (fun _ => Ty.prim "i32") (by with_unfolding_all rfl)
      (by simp)
      (by
        intro x hx
        rw [List.mem_singleton] at hx
        subst hx
        with_unfolding_all rfl)
  · exact claim_C7_redeclaration_checks.2.2.2 0 c7TableD ⟨"x", .NamedTypeExpr "i32"⟩
      (some (Ty.prim "i32")) (Ty.prim "i32") (by with_unfolding_all rfl)
      (by with_unfolding_all rfl)

/-! ### C9 — trailing whitespace before a line break -/

/-- C9 (amended): at any scan position whose first character is a space
or tab (in a source free of carriage returns, on which the EOL pattern
would panic), the lexer consumes the maximal run of `\s` whitespace —
which includes any line break inside that run — as one WHITESPACE match
and emits no token at all for it; in particular a line break immediately
preceded by a space or tab at the start of a scan position produces no
EOL token.  The comment counterexample shows the original claim fails
when the space belongs to a COMMENT token instead. -/
theorem claim_C9_whitespace_run_including_newline_discarded
    (fuel : Nat) (s : List Char) (c : Char)
    (hhead : s.head? = some c) (hc : c = ' ' ∨ c = '\t') (hcr : '\r' ∉ s) :
    0 < (s.takeWhile Lexer.isGoWhitespace).length ∧
    Lexer.tokenizeList (fuel+1) s =
      Lexer.tokenizeList fuel (s.drop (s.takeWhile Lexer.isGoWhitespace).length) := by
  obtain ⟨rest, rfl⟩ : ∃ rest, s = c :: rest := by
    cases s with
    | nil => simp at hhead
    | cons a rest =>
      rw [List.head?_cons, Option.some.injEq] at hhead
      exact ⟨rest, by rw [hhead]⟩
  · have hw : Lexer.isGoWhitespace c = true := by
      rcases hc with h | h <;> subst h <;> rfl
    have htk : (c :: rest).takeWhile Lexer.isGoWhitespace
        = c :: rest.takeWhile Lexer.isGoWhitespace := by
      rw [List.takeWhile_cons, hw]
      rfl
    have hn0 : ((c :: rest).takeWhile Lexer.isGoWhitespace).length ≠ 0 := by
      rw [htk]; simp
    refine ⟨Nat.pos_of_ne_zero hn0, ?_⟩
    have hcont : (c :: rest).contains '\r' = false :=
      Bool.eq_false_iff.mpr (fun h => hcr (List.elem_iff.mp h))
    have heol : Lexer.matchEOL (c :: rest) = .ok none := by
      have hco : (c :: rest).contains '\r' = false := hcont
      rcases hc with h | h
      · rw [h] at hco ⊢
        rw [show Lexer.matchEOL (' ' :: rest) =
              (if ((' ' :: rest).contains '\r') = true then
                .error "Internal error: regex matched at non-zero index!"
              else .ok none) from rfl]
        rw [hco]
        rfl
      · rw [h] at hco ⊢
        rw [show Lexer.matchEOL ('\t' :: rest) =
              (if (('\t' :: rest).contains '\r') = true then
                .error "Internal error: regex matched at non-zero index!"
              else .ok none) from rfl]
        rw [hco]
        rfl
    have hmw : Lexer.matchWhitespace (c :: rest) =
        some ((c :: rest).takeWhile Lexer.isGoWhitespace).length := by
      show (if ((c :: rest).takeWhile Lexer.isGoWhitespace).length = 0 then none
            else some ((c :: rest).takeWhile Lexer.isGoWhitespace).length) = _
      rw [if_neg hn0]
    have hnm : Lexer.nextMatchAux (c :: rest) Lexer.tokenPatterns =
        .ok (some (Lexer.mkToken .WHITESPACE
            (String.mk ((c :: rest).take ((c :: rest).takeWhile Lexer.isGoWhitespace).length)),
          ((c :: rest).takeWhile Lexer.isGoWhitespace).length)) := by
      rw [Lexer.tokenPatterns]
      simp only [Lexer.nextMatchAux, Lexer.pure0, heol, hmw, hn0, if_neg, if_false]
    rw [show Lexer.tokenizeList (fuel+1) (c :: rest) =
          (match Lexer.nextMatchAux (c :: rest) Lexer.tokenPatterns with
           | .error e => .error e
           | .ok none => .error "Internal error: failed to tokenize source"
           | .ok (some (tok, len)) =>
             match Lexer.tokenizeList fuel ((c :: rest).drop len) with
             | .error e => .error e
             | .ok toks => .ok (if tok.type = .WHITESPACE then toks else tok :: toks))
        from rfl]
    rw [hnm]
    cases hres : Lexer.tokenizeList fuel
        ((c :: rest).drop ((c :: rest).takeWhile Lexer.isGoWhitespace).length) with
    | error e => simp [hres]
    | ok toks => simp [hres, Lexer.mkToken]

/-- Witness for C9 (amended): in the source `" \nx"` the line break is
immediately preceded by a space; the whitespace run `" \n"` (length 2)
is consumed whole and discarded, and scanning resumes at `"x"`. -/
theorem claim_C9_whitespace_run_including_newline_discarded_witness :
    ([' ', '\n', 'x'] : List Char).head? = some ' ' ∧
    '\r' ∉ ([' ', '\n', 'x'] : List Char) ∧
    0 < (([' ', '\n', 'x'] : List Char).takeWhile Lexer.isGoWhitespace).length ∧
    Lexer.tokenizeList 4 [' ', '\n', 'x'] =
      Lexer.tokenizeList 3
        (([' ', '\n', 'x'] : List Char).drop
          (([' ', '\n', 'x'] : List Char).takeWhile Lexer.isGoWhitespace).length) := by
  refine ⟨rfl, by decide, ?_⟩
  exact claim_C9_whitespace_run_including_newline_discarded 3 [' ', '\n', 'x'] ' '
    rfl (Or.inl rfl) (by decide)

/-! ### C5 — struct literal acceptance

The member loop of `CheckStructLiteralExpr` is replayed by the pure
function `cleanMembers`, which returns the final assignment flags when
every member assignment succeeds and `none` as soon as one member
errors; `cleanMembers` is then related to the claim's declarative
conditions (no duplicate, no unknown member, matching value types). -/

/-- Replay of the member loop on cleanly-checking values: `some` of the
final flags iff every member assignment succeeds. -/
def cleanMembers (Tmembers : List (String × Ty)) (vty : String × Expr → Ty) :
    List (String × Expr) → List (String × Bool) → Option (List (String × Bool))
  | [], assigned => some assigned
  | p :: rest, assigned =>
    match Tmembers.lookup p.1 with
    | none => none
    | some t =>
      if Checker.assignedFlag assigned p.1 then none
      else if tyEquals t (vty p) then
        cleanMembers Tmembers vty rest (Checker.setAssigned assigned p.1)
      else none

/-- Lookup of a key that hits in an association list lands in its key
projection. -/
theorem lookup_some_mem_keys {β : Type} (a : List (String × β)) {n : String} {v : β}
    (h : a.lookup n = some v) : n ∈ a.map Prod.fst := by
  induction a with
  | nil => simp [List.lookup] at h
  | cons q rest ih =>
    obtain ⟨k, b⟩ := q
    simp only [List.lookup] at h
    cases hk : (n == k) with
    | false =>
      rw [hk] at h
      simp [ih h]
    | true =>
      have : n = k := beq_iff_eq.mp hk
      simp [this]

/-- Setting an assignment flag keeps the key list. -/
theorem setAssigned_keys (a : List (String × Bool)) (n : String) :
    (Checker.setAssigned a n).map Prod.fst = a.map Prod.fst := by
  induction a with
  | nil => rfl
  | cons q rest ih =>
    obtain ⟨k, b⟩ := q
    rw [Checker.setAssigned]
    by_cases hk : k = n
    · rw [if_pos hk]
      simp
    · rw [if_neg hk]
      simp [ih]

/-- Setting one flag leaves the lookup of other keys unchanged. -/
theorem lookup_setAssigned_ne (a : List (String × Bool)) {m n : String} (h : m ≠ n) :
    (Checker.setAssigned a n).lookup m = a.lookup m := by
  induction a with
  | nil => rfl
  | cons q rest ih =>
    obtain ⟨k, b⟩ := q
    rw [Checker.setAssigned]
    by_cases hk : k = n
    · rw [if_pos hk]
      subst hk
      have hmk : (m == k) = false := beq_eq_false_iff_ne.mpr h
      simp [List.lookup, hmk]
    · rw [if_neg hk]
      cases hmk : (m == k) with
      | true => simp [List.lookup, hmk]
      | false => simp [List.lookup, hmk, ih]

/-- Setting one flag leaves the other flags unchanged. -/
theorem assignedFlag_setAssigned_ne (a : List (String × Bool)) {m n : String} (h : m ≠ n) :
    Checker.assignedFlag (Checker.setAssigned a n) m = Checker.assignedFlag a m := by
  rw [Checker.assignedFlag, Checker.assignedFlag, lookup_setAssigned_ne a h]

/-- Setting the flag of a present key reads back true. -/
theorem assignedFlag_setAssigned_self (a : List (String × Bool)) (n : String)
    (h : n ∈ a.map Prod.fst) : Checker.assignedFlag (Checker.setAssigned a n) n = true := by
  induction a with
  | nil => simp at h
  | cons q rest ih =>
    obtain ⟨k, b⟩ := q
    rw [Checker.setAssigned]
    by_cases hk : k = n
    · rw [if_pos hk]
      subst hk
      rw [Checker.assignedFlag]
      simp [List.lookup]
    · rw [if_neg hk]
      rw [Checker.assignedFlag]
      have hnk : (n == k) = false := beq_eq_false_iff_ne.mpr (fun he => hk he.symm)
      simp only [List.lookup, hnk]
      have hr : n ∈ rest.map Prod.fst := by
        rcases List.mem_map.mp h with ⟨q2, hq2, hq2n⟩
        rcases List.mem_cons.mp hq2 with h1 | h1
        · exact absurd (by rw [h1] at hq2n; exact hq2n) hk
        · rw [← hq2n]
          exact List.mem_map_of_mem Prod.fst h1
      have := ih hr
      rw [Checker.assignedFlag] at this
      exact this

/-- Setting a flag never clears an already-set flag. -/
theorem assignedFlag_setAssigned_mono (a : List (String × Bool)) {m n : String}
    (h : Checker.assignedFlag a n = true) :
    Checker.assignedFlag (Checker.setAssigned a m) n = true := by
  by_cases hmn : n = m
  · subst hmn
    apply assignedFlag_setAssigned_self
    rw [Checker.assignedFlag] at h
    cases hl : a.lookup n with
    | none => rw [hl] at h; simp at h
    | some b => exact lookup_some_mem_keys a hl
  · rw [assignedFlag_setAssigned_ne a hmn]
    exact h

/-- The initial flag table has the struct's member names as keys. -/
theorem initAssigned_keys (Tm : List (String × Ty)) :
    (Checker.initAssigned Tm).map Prod.fst = Tm.map Prod.fst := by
  simp [Checker.initAssigned, List.map_map, Function.comp]

/-- Every flag starts out false. -/
theorem assignedFlag_initAssigned (Tm : List (String × Ty)) (n : String) :
    Checker.assignedFlag (Checker.initAssigned Tm) n = false := by
  induction Tm with
  | nil => rfl
  | cons q rest ih =>
    rw [Checker.assignedFlag] at ih ⊢
    rw [Checker.initAssigned] at ih ⊢
    simp only [List.map_cons, List.lookup]
    cases hk : (n == q.1) with
    | true => simp
    | false =>
      simp only []
      exact ih

/-- The final loop reports nothing iff every flag is set. -/
theorem unassignedErrors_eq_nil_iff (a : List (String × Bool)) :
    Checker.unassignedErrors a = [] ↔ ∀ q ∈ a, q.2 = true := by
  induction a with
  | nil => simp [Checker.unassignedErrors]
  | cons q rest ih =>
    obtain ⟨k, b⟩ := q
    rw [Checker.unassignedErrors]
    cases b
    · simp
    · simp [ih]

/-- With distinct keys, the flag of a present entry is its stored value. -/
theorem assignedFlag_of_mem_nodup {a : List (String × Bool)}
    (hnd : (a.map Prod.fst).Nodup) {k : String} {b : Bool} (h : (k, b) ∈ a) :
    Checker.assignedFlag a k = b := by
  induction a with
  | nil => simp at h
  | cons q rest ih =>
    obtain ⟨k2, b2⟩ := q
    rw [List.map_cons, List.nodup_cons] at hnd
    rw [Checker.assignedFlag]
    rcases List.mem_cons.mp h with h1 | h1
    · rw [Prod.mk.injEq] at h1
      obtain ⟨rfl, rfl⟩ := h1
      simp [List.lookup]
    · have hk : (k == k2) = false := by
        refine beq_eq_false_iff_ne.mpr (fun he => ?_)
        apply hnd.1
        have hmm : (k, b).1 ∈ rest.map Prod.fst := List.mem_map_of_mem Prod.fst h1
        rw [he] at hmm
        exact hmm
      simp only [List.lookup, hk]
      have := ih hnd.2 h1
      rw [Checker.assignedFlag] at this
      exact this

/-- With distinct keys, all entries are true iff every key reads true. -/
theorem all_true_iff_flags {a : List (String × Bool)}
    (hnd : (a.map Prod.fst).Nodup) :
    (∀ q ∈ a, q.2 = true) ↔ (∀ n ∈ a.map Prod.fst, Checker.assignedFlag a n = true) := by
  constructor
  · intro hq n hn
    rcases List.mem_map.mp hn with ⟨q, hqa, rfl⟩
    have hfl : Checker.assignedFlag a q.1 = q.2 :=
      assignedFlag_of_mem_nodup hnd (by rw [Prod.mk.eta]; exact hqa)
    rw [hfl]
    exact hq q hqa
  · intro hf q hq
    have hfl : Checker.assignedFlag a q.1 = q.2 :=
      assignedFlag_of_mem_nodup hnd (by rw [Prod.mk.eta]; exact hq)
    rw [← hfl]
    exact hf q.1 (List.mem_map_of_mem Prod.fst hq)

/-- A successful replay keeps the flag table's keys. -/
theorem cleanMembers_keys (Tm : List (String × Ty)) (vty : String × Expr → Ty) :
    ∀ (members : List (String × Expr)) (assigned a2 : List (String × Bool)),
      cleanMembers Tm vty members assigned = some a2 →
      a2.map Prod.fst = assigned.map Prod.fst := by
  intro members
  induction members with
  | nil =>
    intro assigned a2 h
    simp only [cleanMembers] at h
    rw [← Option.some.inj h]
  | cons p rest ih =>
    intro assigned a2 h
    simp only [cleanMembers] at h
    cases hl : Tm.lookup p.1 with
    | none => rw [hl] at h; exact Option.noConfusion h
    | some t =>
      rw [hl] at h
      dsimp only at h
      by_cases hf : Checker.assignedFlag assigned p.1 = true
      · rw [if_pos hf] at h; exact Option.noConfusion h
      · rw [if_neg hf] at h
        by_cases ht : tyEquals t (vty p) = true
        · rw [if_pos ht] at h
          rw [ih _ _ h, setAssigned_keys]
        · rw [if_neg ht] at h; exact Option.noConfusion h

/-- After a successful replay a flag is set iff it was set before or its
name is assigned by the literal. -/
theorem cleanMembers_flags (Tm : List (String × Ty)) (vty : String × Expr → Ty) :
    ∀ (members : List (String × Expr)) (assigned a2 : List (String × Bool)),
      assigned.map Prod.fst = Tm.map Prod.fst →
      cleanMembers Tm vty members assigned = some a2 →
      ∀ n, Checker.assignedFlag a2 n = true ↔
        (Checker.assignedFlag assigned n = true ∨ n ∈ members.map Prod.fst) := by
  intro members
  induction members with
  | nil =>
    intro assigned a2 hk h n
    simp only [cleanMembers] at h
    rw [← Option.some.inj h]
    simp
  | cons p rest ih =>
    intro assigned a2 hk h n
    simp only [cleanMembers] at h
    cases hl : Tm.lookup p.1 with
    | none => rw [hl] at h; exact Option.noConfusion h
    | some t =>
      rw [hl] at h
      dsimp only at h
      by_cases hf : Checker.assignedFlag assigned p.1 = true
      · rw [if_pos hf] at h; exact Option.noConfusion h
      · rw [if_neg hf] at h
        by_cases ht : tyEquals t (vty p) = true
        · rw [if_pos ht] at h
          have hk2 : (Checker.setAssigned assigned p.1).map Prod.fst = Tm.map Prod.fst := by
            rw [setAssigned_keys, hk]
          have hmem : p.1 ∈ assigned.map Prod.fst := by
            rw [hk]; exact lookup_some_mem_keys Tm hl
          rw [ih _ _ hk2 h n]
          by_cases hn : n = p.1
          · subst hn
            simp [assignedFlag_setAssigned_self assigned p.1 hmem]
          · rw [assignedFlag_setAssigned_ne assigned hn]
            simp only [List.map_cons, List.mem_cons]
            constructor
            · rintro (h1 | h1)
              · exact Or.inl h1
              · exact Or.inr (Or.inr h1)
            · rintro (h1 | h1 | h1)
              · exact Or.inl h1
              · exact absurd h1 hn
              · exact Or.inr h1
        · rw [if_neg ht] at h; exact Option.noConfusion h

/-- The replay succeeds iff the literal's member names are distinct and
unassigned so far, and each names a struct member of matching type. -/
theorem cleanMembers_isSome_iff (Tm : List (String × Ty)) (vty : String × Expr → Ty) :
    ∀ (members : List (String × Expr)) (assigned : List (String × Bool)),
      assigned.map Prod.fst = Tm.map Prod.fst →
      ((cleanMembers Tm vty members assigned).isSome = true ↔
        ((members.map Prod.fst).Nodup ∧
         (∀ p ∈ members, Checker.assignedFlag assigned p.1 = false) ∧
         (∀ p ∈ members, ∃ t, Tm.lookup p.1 = some t ∧ tyEquals t (vty p) = true))) := by
  intro members
  induction members with
  | nil =>
    intro assigned hk
    simp [cleanMembers]
  | cons p rest ih =>
    intro assigned hk
    simp only [cleanMembers]
    cases hl : Tm.lookup p.1 with
    | none =>
      apply iff_of_false (by simp)
      rintro ⟨-, -, h3⟩
      rcases h3 p (by simp) with ⟨t, hlt, -⟩
      rw [hl] at hlt
      exact Option.noConfusion hlt
    | some t =>
      dsimp only
      by_cases hf : Checker.assignedFlag assigned p.1 = true
      · rw [if_pos hf]
        apply iff_of_false (by simp)
        rintro ⟨-, h2, -⟩
        rw [h2 p (by simp)] at hf
        exact Bool.noConfusion hf
      · rw [if_neg hf]
        by_cases ht : tyEquals t (vty p) = true
        · rw [if_pos ht]
          have hmem : p.1 ∈ assigned.map Prod.fst := by
            rw [hk]; exact lookup_some_mem_keys Tm hl
          have hk2 : (Checker.setAssigned assigned p.1).map Prod.fst = Tm.map Prod.fst := by
            rw [setAssigned_keys, hk]
          rw [ih (Checker.setAssigned assigned p.1) hk2]
          constructor
          · rintro ⟨hnd, hflags, hconds⟩
            refine ⟨?_, ?_, ?_⟩
            · rw [List.map_cons, List.nodup_cons]
              refine ⟨?_, hnd⟩
              intro hmem2
              rcases List.mem_map.mp hmem2 with ⟨q, hq, hq1⟩
              have hflq := hflags q hq
              rw [hq1, assignedFlag_setAssigned_self assigned p.1 hmem] at hflq
              exact Bool.noConfusion hflq
            · intro q hq
              rcases List.mem_cons.mp hq with h1 | h1
              · rw [h1]
                exact Bool.eq_false_iff.mpr hf
              · have hne : q.1 ≠ p.1 := by
                  intro he
                  have hflq := hflags q h1
                  rw [he, assignedFlag_setAssigned_self assigned p.1 hmem] at hflq
                  exact Bool.noConfusion hflq
                have hflq := hflags q h1
                rw [assignedFlag_setAssigned_ne assigned hne] at hflq
                exact hflq
            · intro q hq
              rcases List.mem_cons.mp hq with h1 | h1
              · rw [h1]
                exact ⟨t, hl, ht⟩
              · exact hconds q h1
          · rintro ⟨hnd, hflags, hconds⟩
            rw [List.map_cons, List.nodup_cons] at hnd
            refine ⟨hnd.2, ?_, fun q hq => hconds q (by simp [hq])⟩
            intro q hq
            have hne : q.1 ≠ p.1 := by
              intro he
              exact hnd.1 (he ▸ List.mem_map_of_mem Prod.fst hq)
            rw [assignedFlag_setAssigned_ne assigned hne]
            exact hflags q (by simp [hq])
        · rw [if_neg ht]
          apply iff_of_false (by simp)
          rintro ⟨-, -, h3⟩
          rcases h3 p (by simp) with ⟨t2, hlt, ht2⟩
          rw [hl] at hlt
          obtain rfl : t2 = t := (Option.some.inj hlt).symm
          exact ht ht2

/-- The member loop of `CheckStructLiteralExpr` on cleanly-checking
values: the table is unchanged, and the errors are empty exactly when
the `cleanMembers` replay succeeds (whose flags it then returns). -/
theorem CheckStructLiteralMembers_clean (tbl : SymbolTable) (T : String)
    (Tm : List (String × Ty)) (vty : String × Expr → Ty) :
    ∀ (members : List (String × Expr)) (fuel : Nat) (assigned : List (String × Bool)),
      members.length < fuel + 1 →
      (∀ p ∈ members, ∀ g, Checker.CheckExpr (g+1) tbl p.2 = .ok (some (vty p), tbl, [])) →
      ∃ a2 errs,
        Checker.CheckStructLiteralMembers (fuel+1) tbl T Tm members assigned =
          .ok (a2, tbl, errs) ∧
        ((errs = [] ∧ cleanMembers Tm vty members assigned = some a2) ∨
         (errs ≠ [] ∧ cleanMembers Tm vty members assigned = none)) := by
  intro members
  induction members with
  | nil =>
    intro fuel assigned hfuel hvals
    refine ⟨assigned, [], ?_, Or.inl ⟨rfl, rfl⟩⟩
    rw [Checker.CheckStructLiteralMembers]
  | cons p rest ih =>
    obtain ⟨pn, pv⟩ := p
    intro fuel assigned hfuel hvals
    obtain ⟨g, rfl⟩ : ∃ g, fuel = g + 1 := ⟨fuel - 1, by simp at hfuel; omega⟩
    have hlen : rest.length < g + 1 := by simp at hfuel; omega
    have hvrest : ∀ q ∈ rest, ∀ g2, Checker.CheckExpr (g2+1) tbl q.2 =
        .ok (some (vty q), tbl, []) :=
      fun q hq => hvals q (by simp [hq])
    have hval : Checker.CheckExpr (g+1) tbl pv = .ok (some (vty (pn, pv)), tbl, []) :=
      hvals (pn, pv) (by simp) g
    cases hl : Tm.lookup pn with
    | none =>
      obtain ⟨a2, errs, hrec, hspec⟩ := ih g assigned hlen hvrest
      refine ⟨a2, Checker.typeErr (pn ++ " is not a member of struct " ++ T) :: errs, ?_, ?_⟩
      · rw [Checker.CheckStructLiteralMembers]
        dsimp only
        rw [hl]
        dsimp only
        rw [hrec, exceptOk_bind]
      · rcases hspec with ⟨-, -⟩ | ⟨-, hcm⟩ <;>
        · refine Or.inr ⟨by simp, ?_⟩
          simp only [cleanMembers]
          rw [hl]
    | some t =>
      by_cases hf : Checker.assignedFlag assigned pn = true
      · obtain ⟨a2, errs, hrec, hspec⟩ := ih g assigned hlen hvrest
        refine ⟨a2, Checker.typeErr ("struct member " ++ pn ++ " assigned multiple times") :: errs,
          ?_, ?_⟩
        · rw [Checker.CheckStructLiteralMembers]
          dsimp only
          rw [hl]
          dsimp only
          rw [if_pos hf]
          rw [hrec, exceptOk_bind]
        · refine Or.inr ⟨by simp, ?_⟩
          simp only [cleanMembers]
          rw [hl]
          dsimp only
          rw [if_pos hf]
      · by_cases ht : tyEquals t (vty (pn, pv)) = true
        · obtain ⟨a2, errs, hrec, hspec⟩ := ih g (Checker.setAssigned assigned pn) hlen hvrest
          refine ⟨a2, errs, ?_, ?_⟩
          · rw [Checker.CheckStructLiteralMembers]
            dsimp only
            rw [hl]
            dsimp only
            rw [if_neg hf]
            rw [hval, exceptOk_bind]
            dsimp only
            rw [ht]
            simp only [Bool.not_true, Bool.false_eq_true, if_false]
            rw [hrec, exceptOk_bind]
            simp
          · rcases hspec with ⟨he, hcm⟩ | ⟨he, hcm⟩
            · refine Or.inl ⟨he, ?_⟩
              simp only [cleanMembers]
              rw [hl]
              dsimp only
              rw [if_neg hf, if_pos ht]
              exact hcm
            · refine Or.inr ⟨he, ?_⟩
              simp only [cleanMembers]
              rw [hl]
              dsimp only
              rw [if_neg hf, if_pos ht]
              exact hcm
        · obtain ⟨a2, errs, hrec, hspec⟩ := ih g assigned hlen hvrest
          refine ⟨a2,
            Checker.typeErr ("cannot assign " ++ tyString (vty (pn, pv)) ++ " to " ++
              tyString t ++ " of struct member " ++ pn) :: errs, ?_, ?_⟩
          · rw [Checker.CheckStructLiteralMembers]
            dsimp only
            rw [hl]
            dsimp only
            rw [if_neg hf]
            rw [hval, exceptOk_bind]
            dsimp only
            rw [show tyEquals t (vty (pn, pv)) = false from Bool.eq_false_iff.mpr ht]
            simp only [Bool.not_false, if_true]
            rw [hrec, exceptOk_bind]
            simp
          · refine Or.inr ⟨by simp, ?_⟩
            simp only [cleanMembers]
            rw [hl]
            dsimp only
            rw [if_neg hf]
            rw [show tyEquals t (vty (pn, pv)) = false from Bool.eq_false_iff.mpr ht]
            simp

/-- C5: for a struct literal whose head checks cleanly to the struct
type `T` (distinct member names) and whose member values all check
cleanly with fixed types, the checker returns the struct type, and it
emits no error — accepts the literal — iff the literal's member names
are distinct, every one names a member of `T` whose declared type
equals the value's type, and every member of `T` is assigned. -/
theorem claim_C5_struct_literal_accepted_iff_exact_member_match
    (fuel : Nat) (tbl : SymbolTable) (structE : Expr)
    (members : List (String × Expr)) (T : String) (Tm : List (String × Ty))
    (vty : String × Expr → Ty)
    (hfuel : members.length < fuel)
    (hhead : Checker.CheckExpr fuel tbl structE = .ok (some (.struct T Tm), tbl, []))
    (hvals : ∀ p ∈ members, ∀ g, Checker.CheckExpr (g+1) tbl p.2 = .ok (some (vty p), tbl, []))
    (hndT : (Tm.map Prod.fst).Nodup) :
    ∃ errs, Checker.CheckStructLiteralExpr (fuel+1) tbl structE members =
        .ok (some (.struct T Tm), tbl, errs) ∧
      (errs = [] ↔
        ((members.map Prod.fst).Nodup ∧
         (∀ p ∈ members, ∃ t, Tm.lookup p.1 = some t ∧ tyEquals t (vty p) = true) ∧
         (∀ q ∈ Tm, q.1 ∈ members.map Prod.fst))) := by
  obtain ⟨g, rfl⟩ : ∃ g, fuel = g + 1 := ⟨fuel - 1, by omega⟩
  have hlen : members.length < g + 1 := hfuel
  obtain ⟨a2, errs1, hrec, hspec⟩ :=
    CheckStructLiteralMembers_clean tbl T Tm vty members g (Checker.initAssigned Tm) hlen hvals
  refine ⟨errs1 ++ Checker.unassignedErrors a2, ?_, ?_⟩
  · rw [Checker.CheckStructLiteralExpr]
    rw [hhead, exceptOk_bind]
    dsimp only
    rw [hrec, exceptOk_bind]
    simp
  · have hkeys : (Checker.initAssigned Tm).map Prod.fst = Tm.map Prod.fst := initAssigned_keys Tm
    rcases hspec with ⟨he1, hcm⟩ | ⟨he1, hcm⟩
    · subst he1
      simp only [List.nil_append]
      have hcond := (cleanMembers_isSome_iff Tm vty members (Checker.initAssigned Tm) hkeys).mp
        (by rw [hcm]; rfl)
      have ha2keys : a2.map Prod.fst = Tm.map Prod.fst := by
        rw [cleanMembers_keys Tm vty members _ _ hcm, hkeys]
      have hflags := cleanMembers_flags Tm vty members _ _ hkeys hcm
      rw [unassignedErrors_eq_nil_iff, all_true_iff_flags (by rw [ha2keys]; exact hndT)]
      constructor
      · intro hall
        refine ⟨hcond.1, hcond.2.2, ?_⟩
        intro q hq
        have hqk : q.1 ∈ a2.map Prod.fst := by
          rw [ha2keys]; exact List.mem_map_of_mem Prod.fst hq
        rcases (hflags q.1).mp (hall q.1 hqk) with h1 | h1
        · rw [assignedFlag_initAssigned] at h1
          exact absurd h1 (by simp)
        · exact h1
      · rintro ⟨-, -, hcov⟩
        intro n hn
        rw [hflags n]
        right
        rw [ha2keys] at hn
        rcases List.mem_map.mp hn with ⟨q, hq, rfl⟩
        exact hcov q hq
    · apply iff_of_false
      · intro hnil
        exact he1 (List.append_eq_nil.mp hnil).1
      · rintro ⟨hnd, hconds, -⟩
        have hsome : (cleanMembers Tm vty members (Checker.initAssigned Tm)).isSome = true := by
          rw [cleanMembers_isSome_iff Tm vty members _ hkeys]
          exact ⟨hnd, fun p hp => assignedFlag_initAssigned Tm p.1, hconds⟩
        rw [hcm] at hsome
        exact Bool.noConfusion hsome

/-- A symbol table binding the struct `P` with members `x, y : i32`. -/
def c5Table : SymbolTable :=
  defineStructType (newSymbolTable none) "P"
    ⟨"P", [("x", .prim "i32"), ("y", .prim "i32")]⟩

/-- Witness for C5: the literal `P{x: 1, y: 2}` against the two-member
struct `P`. -/
theorem claim_C5_struct_literal_accepted_iff_exact_member_match_witness :
    ∃ errs,
      Checker.CheckStructLiteralExpr 4 c5Table (.IdentExpr "P")
          [("x", .NumberLiteralExpr "1"), ("y", .NumberLiteralExpr "2")] =
        .ok (some (.struct "P" [("x", Ty.prim "i32"), ("y", Ty.prim "i32")]), c5Table, errs) ∧
      (errs = [] ↔
        (([("x", Expr.NumberLiteralExpr "1"), ("y", Expr.NumberLiteralExpr "2")].map
            Prod.fst).Nodup ∧
         (∀ p ∈ [("x", Expr.NumberLiteralExpr "1"), ("y", Expr.NumberLiteralExpr "2")],
           ∃ t, ([("x", Ty.prim "i32"), ("y", Ty.prim "i32")] : List (String × Ty)).lookup p.1 =
               some t ∧
             tyEquals t ((fun _ => Ty.prim "i32") p) = true) ∧
         (∀ q ∈ ([("x", Ty.prim "i32"), ("y", Ty.prim "i32")] : List (String × Ty)),
           q.1 ∈ [("x", Expr.NumberLiteralExpr "1"),
             ("y", Expr.NumberLiteralExpr "2")].map Prod.fst))) :=
  claim_C5_struct_literal_accepted_iff_exact_member_match 3 c5Table (.IdentExpr "P")
    [("x", .NumberLiteralExpr "1"), ("y", .NumberLiteralExpr "2")] "P"
    [("x", Ty.prim "i32"), ("y", Ty.prim "i32")] (fun _ => Ty.prim "i32")
    (by decide) (by with_unfolding_all rfl)
    (by
      intro p hp g
      rcases List.mem_cons.mp hp with h | h
      · subst h
        rw [Checker.CheckExpr]
      · rw [List.mem_singleton] at h
        subst h
        rw [Checker.CheckExpr])
    (by decide)

end Cooper
